import Mathlib

/-!
Verification of the FoxESS MCP server's protection layer (cache manager,
rate limiter, request authenticator, cache-key builder) against its
natural-language specification.

Python strings are modelled as lists of Unicode code points (PyStr),
byte strings as lists of naturals below 256, machine words as naturals
reduced modulo two to the 32, and wall-clock time as rationals (the
source uses float seconds from time.time()).
-/

namespace FoxESS

/-- A Python str, modelled as its list of Unicode code points. -/
abbrev PyStr := List Nat

/-- Code points of a Lean string literal, used to transcribe the Python
string constants of the source. -/
def strLit (s : String) : PyStr := s.data.map Char.toNat

/-- UTF-8 encoding of one code point, as in str.encode in the source. -/
def utf8Bytes (c : Nat) : List Nat :=
  if c < 128 then [c]
  else if c < 2048 then [192 + c / 64, 128 + c % 64]
  else if c < 65536 then [224 + c / 4096, 128 + (c / 64) % 64, 128 + c % 64]
  else [240 + c / 262144, 128 + (c / 4096) % 64, 128 + (c / 64) % 64, 128 + c % 64]

/-- UTF-8 encoding of a Python string (str.encode with encoding utf-8). -/
def encodeUtf8 (s : PyStr) : List Nat := (s.map utf8Bytes).flatten

/-- Decimal digit characters of a natural number, most significant first;
the code points produced by a Python f-string interpolation of an int. -/
def decimalStr (n : Nat) : PyStr :=
  if n = 0 then [48] else ((Nat.digits 10 n).map (fun d => d + 48)).reverse

/-- Left inverse of decimalStr, witnessing its injectivity. -/
def decodeDecimal (l : PyStr) : Nat :=
  Nat.ofDigits 10 ((l.map (fun c => c - 48)).reverse)

theorem decodeDecimal_decimalStr (n : Nat) : decodeDecimal (decimalStr n) = n := by
  unfold decodeDecimal decimalStr
  by_cases h : n = 0
  · simp [h, Nat.ofDigits]
  · simp only [h, if_false, List.map_reverse, List.reverse_reverse, List.map_map]
    have : ((fun c => c - 48) ∘ fun d => d + 48) = id := by
      funext d; simp
    rw [this, List.map_id, Nat.ofDigits_digits]

theorem decimalStr_injective : Function.Injective decimalStr :=
  Function.LeftInverse.injective decodeDecimal_decimalStr

/-- One byte as two lowercase hexadecimal digit code points
(most significant nibble first), as in hexdigest. -/
def byteHex (b : Nat) : PyStr :=
  let hx : Nat → Nat := fun n => if n < 10 then 48 + n else 87 + n
  [hx (b / 16 % 16), hx (b % 16)]

/-- Lowercase hexadecimal rendering of a byte string (hexdigest). -/
def hexOfBytes (l : List Nat) : PyStr := (l.map byteHex).flatten

theorem length_hexOfBytes (l : List Nat) : (hexOfBytes l).length = 2 * l.length := by
  induction l with
  | nil => simp [hexOfBytes]
  | cons b t ih =>
      simp only [hexOfBytes, List.map_cons, List.flatten, List.length_append] at *
      simp [byteHex, ih]; omega

theorem hexOfBytes_take (l : List Nat) (k : Nat) :
    (hexOfBytes l).take (2 * k) = hexOfBytes (l.take k) := by
  induction l generalizing k with
  | nil => simp [hexOfBytes]
  | cons b t ih =>
      cases k with
      | zero => simp [hexOfBytes]
      | succ k =>
          have hb : (byteHex b).length = 2 := by simp [byteHex]
          have ih' := ih k
          simp only [hexOfBytes, List.take_succ_cons, List.map_cons,
            List.flatten_cons] at ih' ⊢
          rw [show 2 * (k + 1) = (byteHex b).length + 2 * k by omega,
            List.take_append, ih']

/-- Value of a byte string read as a base-256 little-endian number,
used to show that equal digested values force equal digest byte strings. -/
def bytesToNat : List Nat → Nat
  | [] => 0
  | b :: t => b + 256 * bytesToNat t

theorem bytesToNat_lt (l : List Nat) (hb : ∀ b ∈ l, b < 256) :
    bytesToNat l < 256 ^ l.length := by
  induction l with
  | nil => simp [bytesToNat]
  | cons b t ih =>
      have h1 : b < 256 := hb b (by simp)
      have h2 : bytesToNat t < 256 ^ t.length := ih (fun x hx => hb x (by simp [hx]))
      simp only [bytesToNat, List.length_cons, pow_succ]
      calc b + 256 * bytesToNat t < 256 + 256 * bytesToNat t := by omega
        _ = 256 * (bytesToNat t + 1) := by ring
        _ ≤ 256 * 256 ^ t.length := by
            exact Nat.mul_le_mul_left 256 (by omega)
        _ = 256 ^ t.length * 256 := by ring

theorem bytesToNat_inj (l₁ l₂ : List Nat) (hlen : l₁.length = l₂.length)
    (h₁ : ∀ b ∈ l₁, b < 256) (h₂ : ∀ b ∈ l₂, b < 256)
    (h : bytesToNat l₁ = bytesToNat l₂) : l₁ = l₂ := by
  induction l₁ generalizing l₂ with
  | nil => cases l₂ with
      | nil => rfl
      | cons b t => simp at hlen
  | cons b t ih =>
      cases l₂ with
      | nil => simp at hlen
      | cons b₂ t₂ =>
          simp only [bytesToNat] at h
          have hb : b < 256 := h₁ b (by simp)
          have hb₂ : b₂ < 256 := h₂ b₂ (by simp)
          have hbe : b = b₂ := by omega
          have hte : bytesToNat t = bytesToNat t₂ := by omega
          have := ih t₂ (by simpa using hlen) (fun x hx => h₁ x (by simp [hx]))
            (fun x hx => h₂ x (by simp [hx])) hte
          rw [hbe, this]

/-! MD5, as used by hashlib.md5 in the source (RFC 1321), over byte
strings modelled as lists of naturals below 256, with 32-bit words as
naturals reduced modulo 4294967296. -/

/-- Reduction to a 32-bit word. -/
def w32 (x : Nat) : Nat := x % 4294967296

theorem w32_lt (x : Nat) : w32 x < 4294967296 := Nat.mod_lt _ (by norm_num)

/-- Rotate a 32-bit word left by n. -/
def rotl32 (x n : Nat) : Nat := w32 ((x <<< n) ||| (x >>> (32 - n)))

/-- Rotate a 32-bit word right by n. -/
def rotr32 (x n : Nat) : Nat := w32 ((x >>> n) ||| (x <<< (32 - n)))

/-- Bitwise complement of a 32-bit word. -/
def not32 (x : Nat) : Nat := 4294967295 ^^^ x

/-- Little-endian byte decomposition of a natural, k bytes. -/
def bytesOfNatLE (k n : Nat) : List Nat :=
  match k with
  | 0 => []
  | k + 1 => n % 256 :: bytesOfNatLE k (n / 256)

/-- Big-endian byte decomposition of a natural, k bytes. -/
def bytesOfNatBE (k n : Nat) : List Nat := (bytesOfNatLE k n).reverse

theorem bytesOfNatLE_length (k n : Nat) : (bytesOfNatLE k n).length = k := by
  induction k generalizing n with
  | zero => rfl
  | succ k ih => simp [bytesOfNatLE, ih]

theorem bytesOfNatLE_bound (k n : Nat) : ∀ b ∈ bytesOfNatLE k n, b < 256 := by
  induction k generalizing n with
  | zero => simp [bytesOfNatLE]
  | succ k ih =>
      intro b hb
      simp only [bytesOfNatLE, List.mem_cons] at hb
      rcases hb with h | h
      · omega
      · exact ih (n / 256) b h

theorem bytesOfNatBE_length (k n : Nat) : (bytesOfNatBE k n).length = k := by
  simp [bytesOfNatBE, bytesOfNatLE_length]

theorem bytesOfNatBE_bound (k n : Nat) : ∀ b ∈ bytesOfNatBE k n, b < 256 := by
  intro b hb
  exact bytesOfNatLE_bound k n b (by simpa [bytesOfNatBE] using hb)

/-- Merkle-Damgard padding shared by MD5 and SHA-256: one 0x80 byte,
zeros up to 56 mod 64, then the message bit length in eight bytes
(little-endian for MD5, big-endian for SHA-256). -/
def padZeros (len : Nat) : Nat := (119 - len % 64) % 64

def md5Pad (msg : List Nat) : List Nat :=
  msg ++ [128] ++ List.replicate (padZeros msg.length) 0
      ++ bytesOfNatLE 8 ((msg.length * 8) % 18446744073709551616)

def shaPad (msg : List Nat) : List Nat :=
  msg ++ [128] ++ List.replicate (padZeros msg.length) 0
      ++ bytesOfNatBE 8 ((msg.length * 8) % 18446744073709551616)

/-- Split a byte string into successive blocks of 64 bytes; the fuel
argument (instantiated with the length) makes the recursion structural. -/
def chunksAux : Nat → List Nat → List (List Nat)
  | 0, _ => []
  | _, [] => []
  | fuel + 1, x :: xs => (x :: xs).take 64 :: chunksAux fuel ((x :: xs).drop 64)

/-- Split a byte string into successive blocks of 64 bytes. -/
def chunks64 (l : List Nat) : List (List Nat) := chunksAux l.length l

/-- Four little-endian bytes at a time into 32-bit words. -/
def wordsLE : List Nat → List Nat
  | b0 :: b1 :: b2 :: b3 :: rest =>
      (b0 + 256 * b1 + 65536 * b2 + 16777216 * b3) :: wordsLE rest
  | _ => []

/-- Four big-endian bytes at a time into 32-bit words. -/
def wordsBE : List Nat → List Nat
  | b0 :: b1 :: b2 :: b3 :: rest =>
      (16777216 * b0 + 65536 * b1 + 256 * b2 + b3) :: wordsBE rest
  | _ => []

/-- The 64 MD5 sine-table constants of RFC 1321. -/
def md5K : List Nat :=
  [3614090360, 3905402710, 606105819, 3250441966, 4118548399, 1200080426,
   2821735955, 4249261313, 1770035416, 2336552879, 4294925233, 2304563134,
   1804603682, 4254626195, 2792965006, 1236535329, 4129170786, 3225465664,
   643717713, 3921069994, 3593408605, 38016083, 3634488961, 3889429448,
   568446438, 3275163606, 4107603335, 1163531501, 2850285829, 4243563512,
   1735328473, 2368359562, 4294588738, 2272392833, 1839030562, 4259657740,
   2763975236, 1272893353, 4139469664, 3200236656, 681279174, 3936430074,
   3572445317, 76029189, 3654602809, 3873151461, 530742520, 3299628645,
   4096336452, 1126891415, 2878612391, 4237533241, 1700485571, 2399980690,
   4293915773, 2240044497, 1873313359, 4264355552, 2734768916, 1309151649,
   4149444226, 3174756917, 718787259, 3951481745]

/-- The 64 MD5 per-round left-rotation amounts. -/
def md5S : List Nat :=
  [7, 12, 17, 22, 7, 12, 17, 22, 7, 12, 17, 22, 7, 12, 17, 22,
   5, 9, 14, 20, 5, 9, 14, 20, 5, 9, 14, 20, 5, 9, 14, 20,
   4, 11, 16, 23, 4, 11, 16, 23, 4, 11, 16, 23, 4, 11, 16, 23,
   6, 10, 15, 21, 6, 10, 15, 21, 6, 10, 15, 21, 6, 10, 15, 21]

/-- MD5 round bit-function and message index for round j. -/
def md5FG (j B C D : Nat) : Nat × Nat :=
  if j < 16 then ((B &&& C) ||| (not32 B &&& D), j)
  else if j < 32 then ((D &&& B) ||| (not32 D &&& C), (5 * j + 1) % 16)
  else if j < 48 then (B ^^^ C ^^^ D, (3 * j + 5) % 16)
  else (C ^^^ (B ||| not32 D), (7 * j) % 16)

/-- One MD5 round on the (A, B, C, D) state. -/
def md5Round (M : List Nat) (st : Nat × Nat × Nat × Nat) (j : Nat) :
    Nat × Nat × Nat × Nat :=
  let FG := md5FG j st.2.1 st.2.2.1 st.2.2.2
  let Fv := w32 (FG.1 + st.1 + md5K.getD j 0 + M.getD FG.2 0)
  (st.2.2.2, w32 (st.2.1 + rotl32 Fv (md5S.getD j 0)), st.2.1, st.2.2.1)

/-- MD5 compression of one 64-byte block. -/
def md5Block (st : Nat × Nat × Nat × Nat) (blk : List Nat) :
    Nat × Nat × Nat × Nat :=
  let M := wordsLE blk
  let r := (List.range 64).foldl (md5Round M) st
  (w32 (st.1 + r.1), w32 (st.2.1 + r.2.1),
   w32 (st.2.2.1 + r.2.2.1), w32 (st.2.2.2 + r.2.2.2))

def md5Init : Nat × Nat × Nat × Nat :=
  (1732584193, 4023233417, 2562383102, 271733878)

def md5Words (msg : List Nat) : Nat × Nat × Nat × Nat :=
  (chunks64 (md5Pad msg)).foldl md5Block md5Init

/-- The sixteen digest bytes of MD5 (state words little-endian). -/
def md5Bytes (msg : List Nat) : List Nat :=
  bytesOfNatLE 4 (md5Words msg).1 ++ bytesOfNatLE 4 (md5Words msg).2.1
    ++ bytesOfNatLE 4 (md5Words msg).2.2.1 ++ bytesOfNatLE 4 (md5Words msg).2.2.2

/-- hashlib.md5(msg).hexdigest() of the source. -/
def md5Hex (msg : List Nat) : PyStr := hexOfBytes (md5Bytes msg)

theorem md5Bytes_length (msg : List Nat) : (md5Bytes msg).length = 16 := by
  simp [md5Bytes, bytesOfNatLE_length]

theorem md5Bytes_bound (msg : List Nat) : ∀ b ∈ md5Bytes msg, b < 256 := by
  intro b hb
  simp only [md5Bytes, List.mem_append] at hb
  rcases hb with ((h | h) | h) | h <;> exact bytesOfNatLE_bound _ _ b h

set_option maxRecDepth 10000 in
/-- Check against the RFC 1321 test vector for the string abc. -/
theorem md5_testvector :
    md5Hex (encodeUtf8 (strLit "abc")) = strLit "900150983cd24fb0d6963f7d28e17f72" := by
  decide

/-! SHA-256, as used by hashlib.sha256 in the source (FIPS 180-4). -/

/-- The eight-word SHA-256 working state. -/
structure Sha8 where
  a : Nat
  b : Nat
  c : Nat
  d : Nat
  e : Nat
  f : Nat
  g : Nat
  h : Nat

/-- The 64 SHA-256 round constants of FIPS 180-4. -/
def sha256K : List Nat :=
  [1116352408, 1899447441, 3049323471, 3921009573, 961987163, 1508970993,
   2453635748, 2870763221, 3624381080, 310598401, 607225278, 1426881987,
   1925078388, 2162078206, 2614888103, 3248222580, 3835390401, 4022224774,
   264347078, 604807628, 770255983, 1249150122, 1555081692, 1996064986,
   2554220882, 2821834349, 2952996808, 3210313671, 3336571891, 3584528711,
   113926993, 338241895, 666307205, 773529912, 1294757372, 1396182291,
   1695183700, 1986661051, 2177026350, 2456956037, 2730485921, 2820302411,
   3259730800, 3345764771, 3516065817, 3600352804, 4094571909, 275423344,
   430227734, 506948616, 659060556, 883997877, 958139571, 1322822218,
   1537002063, 1747873779, 1955562222, 2024104815, 2227730452, 2361852424,
   2428436474, 2756734187, 3204031479, 3329325298]

/-- Next word of the SHA-256 message schedule, from the current schedule. -/
def shaNextW (w : List Nat) : Nat :=
  let n := w.length
  let x15 := w.getD (n - 15) 0
  let x2 := w.getD (n - 2) 0
  let s0 := rotr32 x15 7 ^^^ rotr32 x15 18 ^^^ (x15 >>> 3)
  let s1 := rotr32 x2 17 ^^^ rotr32 x2 19 ^^^ (x2 >>> 10)
  w32 (w.getD (n - 16) 0 + s0 + w.getD (n - 7) 0 + s1)

/-- Extend the sixteen block words to the 64-entry message schedule. -/
def shaSchedule (w : List Nat) : List Nat :=
  (List.range 48).foldl (fun acc _ => acc ++ [shaNextW acc]) w

/-- One SHA-256 compression round, consuming one (constant, word) pair. -/
def shaComp (st : Sha8) (kw : Nat × Nat) : Sha8 :=
  let S1 := rotr32 st.e 6 ^^^ rotr32 st.e 11 ^^^ rotr32 st.e 25
  let ch := (st.e &&& st.f) ^^^ (not32 st.e &&& st.g)
  let t1 := w32 (st.h + S1 + ch + kw.1 + kw.2)
  let S0 := rotr32 st.a 2 ^^^ rotr32 st.a 13 ^^^ rotr32 st.a 22
  let maj := (st.a &&& st.b) ^^^ (st.a &&& st.c) ^^^ (st.b &&& st.c)
  ⟨w32 (t1 + w32 (S0 + maj)), st.a, st.b, st.c, w32 (st.d + t1), st.e, st.f, st.g⟩

/-- SHA-256 compression of one 64-byte block. -/
def shaBlock (st : Sha8) (blk : List Nat) : Sha8 :=
  let w := shaSchedule (wordsBE blk)
  let r := (sha256K.zip w).foldl shaComp st
  ⟨w32 (st.a + r.a), w32 (st.b + r.b), w32 (st.c + r.c), w32 (st.d + r.d),
   w32 (st.e + r.e), w32 (st.f + r.f), w32 (st.g + r.g), w32 (st.h + r.h)⟩

def sha256Init : Sha8 :=
  ⟨1779033703, 3144134277, 1013904242, 2773480762,
   1359893119, 2600822924, 528734635, 1541459225⟩

def sha256State (msg : List Nat) : Sha8 :=
  (chunks64 (shaPad msg)).foldl shaBlock sha256Init

/-- The 32 digest bytes of SHA-256 (state words big-endian). -/
def sha256Bytes (msg : List Nat) : List Nat :=
  bytesOfNatBE 4 (sha256State msg).a ++ bytesOfNatBE 4 (sha256State msg).b
    ++ bytesOfNatBE 4 (sha256State msg).c ++ bytesOfNatBE 4 (sha256State msg).d
    ++ bytesOfNatBE 4 (sha256State msg).e ++ bytesOfNatBE 4 (sha256State msg).f
    ++ bytesOfNatBE 4 (sha256State msg).g ++ bytesOfNatBE 4 (sha256State msg).h

/-- hashlib.sha256(msg).hexdigest() of the source. -/
def sha256Hex (msg : List Nat) : PyStr := hexOfBytes (sha256Bytes msg)

theorem sha256Bytes_length (msg : List Nat) : (sha256Bytes msg).length = 32 := by
  simp [sha256Bytes, bytesOfNatBE_length]

theorem sha256Bytes_bound (msg : List Nat) : ∀ b ∈ sha256Bytes msg, b < 256 := by
  intro b hb
  simp only [sha256Bytes, List.mem_append] at hb
  rcases hb with ((((((h | h) | h) | h) | h) | h) | h) | h <;>
    exact bytesOfNatBE_bound _ _ b h

set_option maxRecDepth 40000 in
/-- Check against the FIPS 180-4 test vector for the string abc. -/
theorem sha256_testvector :
    sha256Hex (encodeUtf8 (strLit "abc")) =
      strLit "ba7816bf8f01cfea414140de5dae2223b00361a396177a9cb410ff61f20015ad" := by
  decide

/-! Request authenticator: TokenManager of foxess/auth.py together with
the credential validation of utils/validation.py. -/

/-- Carriage-return line-feed separator of the FoxESS signature format. -/
def crlf : PyStr := [13, 10]

/-- The string interpolated by TokenManager.generate_signature
(auth.py line 72): url, token and decimal timestamp joined by CR-LF. -/
def signatureInput (token url : PyStr) (timestamp : Nat) : PyStr :=
  url ++ crlf ++ token ++ crlf ++ decimalStr timestamp

/-- TokenManager.generate_signature (auth.py lines 60-73): the MD5 hex
digest of the UTF-8 encoded signature string. The url argument is
whatever string the caller passes; timestamp is the millisecond count. -/
def generate_signature (token url : PyStr) (timestamp : Nat) : PyStr :=
  md5Hex (encodeUtf8 (signatureInput token url timestamp))

/-- The header map built by TokenManager.get_auth_headers
(auth.py lines 75-95), with the sampled millisecond clock explicit. -/
structure AuthHeaders where
  contentType : PyStr
  token : PyStr
  timestamp : PyStr
  signature : PyStr
  lang : PyStr

def get_auth_headers (token url : PyStr) (timestampMs : Nat) (lang : PyStr) :
    AuthHeaders :=
  ⟨strLit "application/json", token, decimalStr timestampMs,
   generate_signature token url timestampMs, lang⟩

/-- The full URL assembled by FoxESSAPIClient._make_request
(api_client.py line 110). -/
def makeRequestUrl (baseUrl endpoint : PyStr) : PyStr := baseUrl ++ endpoint

/-- The authentication headers obtained by _make_request
(api_client.py line 113): get_auth_headers receives the endpoint path,
not the full URL. -/
def makeRequestHeaders (token baseUrl endpoint : PyStr) (timestampMs : Nat) :
    AuthHeaders :=
  get_auth_headers token endpoint timestampMs (strLit "en")

/-- Hexadecimal digit class of TOKEN_PATTERN, 0-9a-f with re.IGNORECASE
(validation.py line 16). -/
def isHexDigit (c : Nat) : Bool :=
  (48 ≤ c && c ≤ 57) || (97 ≤ c && c ≤ 102) || (65 ≤ c && c ≤ 70)

/-- Anchored core of TOKEN_PATTERN: five hexadecimal groups of lengths
8, 4, 4, 4 and 12 separated by hyphens (code point 45). -/
def tokenPatternCore (s : PyStr) : Bool :=
  s.length == 36 &&
    (List.range 36).all (fun i =>
      if i == 8 || i == 13 || i == 18 || i == 23 then s.getD i 0 == 45
      else isHexDigit (s.getD i 0))

/-- A Python re dollar anchor also matches just before one trailing
newline, so an anchored pattern accepts the bare match or the match plus
a final code point 10. -/
def dollarMatch (core : PyStr → Bool) (s : PyStr) : Bool :=
  core s || (s.getLast? == some 10 && core s.dropLast)

/-- SecurityValidator.validate_token_format (validation.py lines 56-61). -/
def validate_token_format (token : PyStr) : Bool :=
  !token.isEmpty && dollarMatch tokenPatternCore token

/-- Character class of DEVICE_SN_PATTERN, A-Z or 0-9. -/
def isUpperAlnum (c : Nat) : Bool :=
  (65 ≤ c && c ≤ 90) || (48 ≤ c && c ≤ 57)

/-- Anchored core of DEVICE_SN_PATTERN: 10 to 20 uppercase alphanumeric
code points (validation.py line 17). -/
def snPatternCore (s : PyStr) : Bool :=
  decide (10 ≤ s.length) && decide (s.length ≤ 20) && s.all isUpperAlnum

/-- SecurityValidator.validate_device_sn_format
(validation.py lines 63-68). -/
def validate_device_sn_format (sn : PyStr) : Bool :=
  !sn.isEmpty && dollarMatch snPatternCore sn

/-- Error taxonomy of utils/errors.py, restricted to the kinds that
TokenManager construction can raise. -/
inductive CredErrorKind
  | configurationError
  | authenticationError
deriving DecidableEq

/-- The validated credential holder of auth.py. -/
structure TokenManager where
  token : PyStr
  device_sn : PyStr
deriving DecidableEq

instance {ε α : Type} [DecidableEq ε] [DecidableEq α] :
    DecidableEq (Except ε α) := fun x y =>
  match x, y with
  | .error a, .error b =>
      if h : a = b then isTrue (by rw [h]) else isFalse (by simp [h])
  | .ok a, .ok b =>
      if h : a = b then isTrue (by rw [h]) else isFalse (by simp [h])
  | .error _, .ok _ => isFalse (by simp)
  | .ok _, .error _ => isFalse (by simp)

/-- Python truthiness on an optional string: None and the empty string
are falsy, as in the or-chains and the if-not checks of auth.py. -/
def truthyStr (s : Option PyStr) : Option PyStr :=
  match s with
  | some t => if t.isEmpty then none else some t
  | none => none

/-- TokenManager.__init__ together with _load_token_from_env,
_load_device_sn_from_env and _validate_credentials (auth.py lines
16-58): an explicit truthy argument wins over the environment; a missing
or empty credential raises ConfigurationError; a present but malformed
credential raises AuthenticationError, token checked first. -/
def tokenManagerInit (tokenArg deviceSnArg envToken envSn : Option PyStr) :
    Except CredErrorKind TokenManager :=
  match truthyStr tokenArg <|> truthyStr envToken with
  | none => .error .configurationError
  | some token =>
    match truthyStr deviceSnArg <|> truthyStr envSn with
    | none => .error .configurationError
    | some sn =>
      if !validate_token_format token then .error .authenticationError
      else if !validate_device_sn_format sn then .error .authenticationError
      else .ok ⟨token, sn⟩

/-! Rate limiter of foxess/auth.py. Wall-clock instants are rationals
(the source works with float seconds from time.time()). -/

/-- Request type passed to the rate limiter; the source compares the
string with the literal update and treats every other value as query. -/
inductive ReqType
  | query
  | update
deriving DecidableEq

/-- RateLimiter state (auth.py lines 136-141): the stored acceptance
timestamps and the shared last-request instant. -/
structure RateLimiter where
  request_history : List ℚ
  last_request_time : ℚ
deriving DecidableEq

def RateLimiter.init : RateLimiter := ⟨[], 0⟩

/-- FoxESS daily request quota per device. -/
def daily_limit : Nat := 1440

/-- Minimum seconds between requests, by request type. -/
def minInterval : ReqType → ℚ
  | .update => 2
  | .query => 1

/-- The history pruned to the trailing 24 hours, the local binding
can_make_request computes before its checks. -/
def prunedHistory (rl : RateLimiter) (now : ℚ) : List ℚ :=
  rl.request_history.filter (fun t => decide (now - 86400 < t))

/-- RateLimiter.can_make_request (auth.py lines 143-168): prune entries
older than 24 hours, deny on the daily quota, then deny below the
minimum interval since the shared last request. Pruning reassigns the
stored history, so the mutated limiter is returned with the decision. -/
def can_make_request (rl : RateLimiter) (rt : ReqType) (now : ℚ) :
    Bool × RateLimiter :=
  if daily_limit ≤ (prunedHistory rl now).length then
    (false, ⟨prunedHistory rl now, rl.last_request_time⟩)
  else if now - rl.last_request_time < minInterval rt then
    (false, ⟨prunedHistory rl now, rl.last_request_time⟩)
  else (true, ⟨prunedHistory rl now, rl.last_request_time⟩)

/-- RateLimiter.record_request (auth.py lines 170-179): append the
current instant and update the shared last-request instant; the request
type argument is unused by the source. -/
def record_request (rl : RateLimiter) (now : ℚ) : RateLimiter :=
  ⟨rl.request_history ++ [now], now⟩

/-- RateLimiter.get_wait_time (auth.py lines 181-195). -/
def get_wait_time (rl : RateLimiter) (rt : ReqType) (now : ℚ) : ℚ :=
  max 0 (minInterval rt - (now - rl.last_request_time))

/-- RateLimiter.get_remaining_requests (auth.py lines 197-203); the
Nat subtraction realises the max-with-zero of the source. -/
def get_remaining_requests (rl : RateLimiter) (now : ℚ) : Nat :=
  daily_limit -
    (rl.request_history.filter (fun t => decide (now - 86400 < t))).length

/-- States of one RateLimiter instance reachable under the documented
protocol: time only moves forward, checks may happen at any instant, and
a request is recorded only right after a passing check at that instant
(callers must call record only for a permitted request). -/
inductive RateReach : RateLimiter → ℚ → Prop
  | init (t : ℚ) : RateReach RateLimiter.init t
  | advance {rl : RateLimiter} {t t' : ℚ} :
      RateReach rl t → t ≤ t' → RateReach rl t'
  | check {rl : RateLimiter} {t : ℚ} (rt : ReqType) :
      RateReach rl t → RateReach (can_make_request rl rt t).2 t
  | record {rl : RateLimiter} {t : ℚ} (rt : ReqType) :
      RateReach rl t → (can_make_request rl rt t).1 = true →
      RateReach (record_request (can_make_request rl rt t).2 t) t

/-! Cache manager of cache/manager.py. Values are JSON documents; the
compact serializer below embeds json.dumps with ensure_ascii False and
the separators comma and colon. Python floats are not modelled; the
cached payloads the claims concern are built from objects, arrays,
strings, integers, booleans and null. -/

inductive Json where
  | null
  | bool (b : Bool)
  | num (n : Int)
  | str (s : PyStr)
  | arr (xs : List Json)
  | obj (kvs : List (PyStr × Json))

/-- JSON string escaping as json.dumps performs it with ensure_ascii
False: quote, backslash and the control characters are escaped, every
other code point is emitted as itself. -/
def escapeChar (c : Nat) : PyStr :=
  if c = 34 then [92, 34]
  else if c = 92 then [92, 92]
  else if c = 10 then [92, 110]
  else if c = 13 then [92, 114]
  else if c = 9 then [92, 116]
  else if c = 8 then [92, 98]
  else if c = 12 then [92, 102]
  else if c < 32 then [92, 117, 48, 48] ++ byteHex c
  else [c]

def escapeStr (s : PyStr) : PyStr := (s.map escapeChar).flatten

/-- Decimal rendering of a Python int, with a minus sign when negative. -/
def intDecimal (n : Int) : PyStr :=
  if n < 0 then 45 :: decimalStr n.natAbs else decimalStr n.natAbs

mutual
/-- json.dumps with ensure_ascii False and separators comma and colon,
as _set_to_disk serializes cache data (manager.py line 480). -/
def serializeJson : Json → PyStr
  | .null => strLit "null"
  | .bool true => strLit "true"
  | .bool false => strLit "false"
  | .num n => intDecimal n
  | .str s => [34] ++ escapeStr s ++ [34]
  | .arr xs => [91] ++ serializeArr xs ++ [93]
  | .obj kvs => [123] ++ serializeObj kvs ++ [125]

/-- Comma-separated rendering of a JSON array body. -/
def serializeArr : List Json → PyStr
  | [] => []
  | [x] => serializeJson x
  | x :: y :: t => serializeJson x ++ [44] ++ serializeArr (y :: t)

/-- Comma-separated rendering of a JSON object body. -/
def serializeObj : List (PyStr × Json) → PyStr
  | [] => []
  | [(k, v)] => [34] ++ escapeStr k ++ [34, 58] ++ serializeJson v
  | (k, v) :: y :: t =>
      [34] ++ escapeStr k ++ [34, 58] ++ serializeJson v ++ [44]
        ++ serializeObj (y :: t)
end

/-- Maximum cache file size (manager.py line 87). -/
def MAX_CACHE_FILE_SIZE : Nat := 10485760

/-- Per-data-type TTL table with dict.get fallback to the manager
default (manager.py lines 135-141 and 221). -/
def ttl_config (dataType : PyStr) (defaultTtl : Nat) : Nat :=
  if dataType = strLit "realtime" then 180
  else if dataType = strLit "historical" then 3600
  else if dataType = strLit "diagnosis" then 1800
  else if dataType = strLit "forecast" then 1800
  else if dataType = strLit "device_info" then 86400
  else defaultTtl

/-- Error raised by Fernet.decrypt on a bad or foreign token. -/
inductive FernetError
  | invalidToken
deriving DecidableEq

/-- A Fernet token: authentication tag plus ciphertext. Modelled from
the spec: the cipher itself lives in the external cryptography package,
and the spec relies only on decrypt inverting encrypt under the same
key and on decryption under a different key failing cleanly with
InvalidToken. The keystream is modelled as a per-byte additive stream
and the HMAC verification as an exact key-identity check on the tag
(a cross-key MAC collision is cryptographically negligible and nothing
in the source relies on one). -/
structure FernetToken where
  tag : Nat
  body : List Nat
deriving DecidableEq

/-- CacheEncryption.encrypt (manager.py lines 74-76). -/
def fernetEncrypt (key : Nat) (data : List Nat) : FernetToken :=
  ⟨key, data.map (fun b => (b + key) % 256)⟩

/-- CacheEncryption.decrypt (manager.py lines 78-80); InvalidToken
unless the token authenticates under the decrypting key. -/
def fernetDecrypt (key : Nat) (tok : FernetToken) :
    Except FernetError (List Nat) :=
  if tok.tag = key then
    .ok (tok.body.map (fun b => (b + (256 - key % 256)) % 256))
  else .error .invalidToken

/-- One memory-tier slot: the cached document and its insertion time
(cachetools stores the expiry instant; insertion time plus the
cache-wide TTL is the same datum). -/
structure MemEntry where
  value : Json
  insertedAt : ℚ

/-- One disk-tier entry: the payload file and its metadata sidecar,
which the source always writes together and deletes together. encKeyId
is the key the payload was encrypted under (none for a plain write) and
fileSize the stored payload size checked against the 10 MB limit. -/
structure DiskEntry where
  value : Json
  created : ℚ
  ttl : Nat
  encKeyId : Option Nat
  fileSize : Nat

/-- CacheManager state: the manager default TTL, the Fernet key when
encryption is enabled, the two tiers, and an instrumentation counter of
disk-tier consultations (the spec verifies promotion through such a
counter). -/
structure CacheState where
  default_ttl : Nat
  encryptionKey : Option Nat
  memory : List (PyStr × MemEntry)
  disk : List (PyStr × DiskEntry)
  diskReads : Nat

/-- Lookup in an association list, first binding wins. -/
def alistGet {α : Type} (k : PyStr) : List (PyStr × α) → Option α
  | [] => none
  | (k₂, v) :: t => if k₂ = k then some v else alistGet k t

/-- Remove every binding of a key. -/
def alistErase {α : Type} (k : PyStr) (l : List (PyStr × α)) :
    List (PyStr × α) :=
  l.filter (fun p => !(p.1 = k : Bool))

/-- Bind a key, replacing any previous binding. -/
def alistInsert {α : Type} (k : PyStr) (v : α) (l : List (PyStr × α)) :
    List (PyStr × α) :=
  (k, v) :: alistErase k l

/-- Memory-tier visibility: a TTLCache item is visible while now is
before its insertion time plus the cache-wide TTL, which the manager
fixes to default_ttl for every entry (manager.py line 123). The LRU
capacity eviction (maxsize, default 1000) is not modelled; the states
the claims concern hold far fewer entries than the capacity. -/
def memoryLookup (st : CacheState) (key : PyStr) (now : ℚ) : Option Json :=
  match alistGet key st.memory with
  | some e =>
      if now - e.insertedAt < (st.default_ttl : ℚ) then some e.value else none
  | none => none

/-- CacheManager._get_from_disk (manager.py lines 412-471): miss when no
payload file exists; delete and miss when the file exceeds the size
limit; read the TTL and creation time from the metadata sidecar (always
written with the payload in this model) and delete and miss once
now - created exceeds the TTL; then decrypt, where a key mismatch in
either direction (InvalidToken from Fernet, or JSONDecodeError from
loading ciphertext as plain JSON) deletes the files and misses. A
successful read returns json.loads of the payload, the inverse of the
serialization that wrote it. -/
def getFromDisk (st : CacheState) (key dataType : PyStr) (now : ℚ) :
    Option Json × CacheState :=
  match alistGet key st.disk with
  | none => (none, st)
  | some e =>
      if MAX_CACHE_FILE_SIZE < e.fileSize then
        (none, { st with disk := alistErase key st.disk })
      else if (e.ttl : ℚ) < now - e.created then
        (none, { st with disk := alistErase key st.disk })
      else if st.encryptionKey = e.encKeyId then (some e.value, st)
      else (none, { st with disk := alistErase key st.disk })

/-- CacheManager._set_to_disk (manager.py lines 473-522): serialize,
refuse silently above the 10 MB limit, otherwise write payload and
metadata. The ioFail flag models an IOError raised by the filesystem
during the write; the except branch removes both files, so no partial
entry survives a failed write. -/
def setToDisk (st : CacheState) (key : PyStr) (v : Json) (ttl : Nat)
    (now : ℚ) (ioFail : Bool) : CacheState :=
  if MAX_CACHE_FILE_SIZE < (serializeJson v).length then st
  else if ioFail then { st with disk := alistErase key st.disk }
  else
    { st with
        disk := alistInsert key
          ⟨v, now, ttl, st.encryptionKey, (serializeJson v).length⟩ st.disk }

/-- The TTL set resolves: the explicit argument, or the data-type
table with the manager default (manager.py lines 220-221). -/
def resolveTtl (dataType : PyStr) (ttlArg : Option Nat) (defaultTtl : Nat) :
    Nat :=
  match ttlArg with
  | some t => t
  | none => ttl_config dataType defaultTtl

/-- CacheManager.set (manager.py lines 200-234): resolve the TTL, write
the memory tier, attempt the disk write, and report success;
_set_to_disk catches its own filesystem errors, so the except branch of
set is not reached and set returns True. -/
def cacheSet (st : CacheState) (key : PyStr) (v : Json) (dataType : PyStr)
    (ttlArg : Option Nat) (now : ℚ) (ioFail : Bool) : Bool × CacheState :=
  (true, setToDisk { st with memory := alistInsert key ⟨v, now⟩ st.memory }
    key v (resolveTtl dataType ttlArg st.default_ttl) now ioFail)

/-- CacheManager.get (manager.py lines 170-198): memory tier first; on
a memory miss consult the disk tier (counted by diskReads) and promote
a disk hit into the memory tier before returning. -/
def cacheGet (st : CacheState) (key dataType : PyStr) (now : ℚ) :
    Option Json × CacheState :=
  match memoryLookup st key now with
  | some v => (some v, st)
  | none =>
      let st₁ : CacheState := { st with diskReads := st.diskReads + 1 }
      match getFromDisk st₁ key dataType now with
      | (some v, st₂) =>
          (some v, { st₂ with memory := alistInsert key ⟨v, now⟩ st₂.memory })
      | (none, st₂) => (none, st₂)

/-- CacheManager.delete with _delete_from_disk (manager.py lines 236-252
and 524-538): the memory entry is always popped, and the returned
Boolean reports only whether an on-disk file for the key existed and
was removed (payload and metadata sidecar exist together in reachable
states; both are removed). -/
def cacheDelete (st : CacheState) (key : PyStr) : Bool × CacheState :=
  ((alistGet key st.disk).isSome,
   { st with memory := alistErase key st.memory,
             disk := alistErase key st.disk })

/-! Cache key builder: CacheManager.generate_cache_key
(manager.py lines 384-410). -/

/-- The order Python sorted() applies to kwargs.items(): lexicographic
comparison of the (key, value) string tuples. -/
def kvLe (a b : PyStr × PyStr) : Prop :=
  a.1 < b.1 ∨ (a.1 = b.1 ∧ a.2 ≤ b.2)

instance : DecidableRel kvLe := fun a b => by
  unfold kvLe; exact inferInstance

instance : IsTotal (PyStr × PyStr) kvLe := by
  constructor
  intro a b
  rcases lt_trichotomy a.1 b.1 with h | h | h
  · exact Or.inl (Or.inl h)
  · rcases le_total a.2 b.2 with h₂ | h₂
    · exact Or.inl (Or.inr ⟨h, h₂⟩)
    · exact Or.inr (Or.inr ⟨h.symm, h₂⟩)
  · exact Or.inr (Or.inl h)

instance : IsTrans (PyStr × PyStr) kvLe := by
  constructor
  intro a b c hab hbc
  rcases hab with h₁ | ⟨h₁, h₁v⟩
  · rcases hbc with h₂ | ⟨h₂, _⟩
    · exact Or.inl (h₁.trans h₂)
    · exact Or.inl (h₂ ▸ h₁)
  · rcases hbc with h₂ | ⟨h₂, h₂v⟩
    · exact Or.inl (h₁ ▸ h₂)
    · exact Or.inr ⟨h₁.trans h₂, h₁v.trans h₂v⟩

instance : IsAntisymm (PyStr × PyStr) kvLe := by
  constructor
  intro a b hab hba
  rcases hab with h₁ | ⟨h₁, h₁v⟩
  · rcases hba with h₂ | ⟨h₂, _⟩
    · exact absurd (h₁.trans h₂) (lt_irrefl _)
    · exact absurd (h₂ ▸ h₁) (lt_irrefl _)
  · rcases hba with h₂ | ⟨_, h₂v⟩
    · exact absurd (h₁ ▸ h₂) (lt_irrefl _)
    · exact Prod.ext h₁ (le_antisymm h₁v h₂v)

/-- sorted(kwargs.items()) of the source. -/
def sortKw (kwargs : List (PyStr × PyStr)) : List (PyStr × PyStr) :=
  List.insertionSort kvLe kwargs

/-- One rendered kwargs item, the f-string k=v; values are strings
already (str is applied by the source when interpolating). -/
def kvRender (kv : PyStr × PyStr) : PyStr := kv.1 ++ [61] ++ kv.2

/-- str.join semantics: head, then separator-prefixed tail items. -/
def joinSep (sep : PyStr) : List PyStr → PyStr
  | [] => []
  | x :: t => x ++ (t.map (fun s => sep ++ s)).flatten

/-- The joined key string of generate_cache_key: operation, device
serial and the sorted rendered kwargs, separated by the pipe. -/
def cacheKeyString (operation device_sn : PyStr)
    (kwargs : List (PyStr × PyStr)) : PyStr :=
  joinSep [124] ([operation, device_sn] ++ (sortKw kwargs).map kvRender)

/-- CacheManager.generate_cache_key: foxess:{operation}:{first 32 hex
digits of the SHA-256 of the key string}. -/
def generate_cache_key (operation device_sn : PyStr)
    (kwargs : List (PyStr × PyStr)) : PyStr :=
  strLit "foxess:" ++ operation ++ [58]
    ++ (sha256Hex (encodeUtf8 (cacheKeyString operation device_sn kwargs))).take 32

/-! Theorems. Shared helper lemmas come first, then one theorem per
claim together with its witness or counterexample. -/

theorem signatureInput_url_inj {token u₁ u₂ : PyStr} {ts : Nat}
    (h : signatureInput token u₁ ts = signatureInput token u₂ ts) : u₁ = u₂ := by
  unfold signatureInput at h
  simp only [List.append_assoc] at h
  exact List.append_cancel_right h

theorem signatureInput_token_inj {t₁ t₂ url : PyStr} {ts : Nat}
    (h : signatureInput t₁ url ts = signatureInput t₂ url ts) : t₁ = t₂ := by
  unfold signatureInput at h
  simp only [List.append_assoc] at h
  exact List.append_cancel_right
    (List.append_cancel_left (List.append_cancel_left h))

theorem signatureInput_ts_inj {token url : PyStr} {s₁ s₂ : Nat}
    (h : signatureInput token url s₁ = signatureInput token url s₂) :
    s₁ = s₂ := by
  unfold signatureInput at h
  simp only [List.append_assoc] at h
  exact decimalStr_injective
    (List.append_cancel_left (List.append_cancel_left
      (List.append_cancel_left (List.append_cancel_left h))))

theorem md5Bytes_eq_of_bytesToNat_eq {m₁ m₂ : List Nat}
    (h : bytesToNat (md5Bytes m₁) = bytesToNat (md5Bytes m₂)) :
    md5Bytes m₁ = md5Bytes m₂ :=
  bytesToNat_inj _ _ (by rw [md5Bytes_length, md5Bytes_length])
    (md5Bytes_bound m₁) (md5Bytes_bound m₂) h

/-- The MD5 digest value as an element of the finite 128-bit space,
used for the pigeonhole argument below. -/
def md5DigestFin (m : List Nat) : Fin (256 ^ 16) :=
  ⟨bytesToNat (md5Bytes m), by
    have := bytesToNat_lt (md5Bytes m) (md5Bytes_bound m)
    rwa [md5Bytes_length] at this⟩

theorem md5DigestFin_val (m : List Nat) :
    (md5DigestFin m).val = bytesToNat (md5Bytes m) := rfl

/-- C2 (amended). The signature is the fixed MD5 hex digest of the
CR-LF joined signing input, a pure function of path, token and
timestamp; changing any one of the three inputs changes the signing
input that is digested; and the outbound-call path signs the endpoint
path, never the full URL, which differs from the path whenever the base
URL is nonempty. (The digest itself, having at most two to the 128
values, cannot separate every pair of distinct paths; see the
counterexample theorem.) -/
theorem signature_determinism_and_path_signing :
    (∀ (token url : PyStr) (ts : Nat),
        generate_signature token url ts
          = md5Hex (encodeUtf8 (signatureInput token url ts)))
  ∧ (∀ (t₁ t₂ u₁ u₂ : PyStr) (s₁ s₂ : Nat), t₁ = t₂ → u₁ = u₂ → s₁ = s₂ →
        generate_signature t₁ u₁ s₁ = generate_signature t₂ u₂ s₂)
  ∧ (∀ (token u₁ u₂ : PyStr) (ts : Nat), u₁ ≠ u₂ →
        signatureInput token u₁ ts ≠ signatureInput token u₂ ts)
  ∧ (∀ (t₁ t₂ url : PyStr) (ts : Nat), t₁ ≠ t₂ →
        signatureInput t₁ url ts ≠ signatureInput t₂ url ts)
  ∧ (∀ (token url : PyStr) (s₁ s₂ : Nat), s₁ ≠ s₂ →
        signatureInput token url s₁ ≠ signatureInput token url s₂)
  ∧ (∀ (token baseUrl endpoint : PyStr) (ts : Nat),
        (makeRequestHeaders token baseUrl endpoint ts).signature
          = generate_signature token endpoint ts
      ∧ (baseUrl ≠ [] →
          signatureInput token endpoint ts
            ≠ signatureInput token (makeRequestUrl baseUrl endpoint) ts)) := by
  refine ⟨fun _ _ _ => rfl, ?_, ?_, ?_, ?_, ?_⟩
  · intro t₁ t₂ u₁ u₂ s₁ s₂ h₁ h₂ h₃
    rw [h₁, h₂, h₃]
  · intro token u₁ u₂ ts hne h
    exact hne (signatureInput_url_inj h)
  · intro t₁ t₂ url ts hne h
    exact hne (signatureInput_token_inj h)
  · intro token url s₁ s₂ hne h
    exact hne (signatureInput_ts_inj h)
  · intro token baseUrl endpoint ts
    refine ⟨rfl, fun hb h => ?_⟩
    have hu := signatureInput_url_inj h
    have : baseUrl.length + endpoint.length = endpoint.length := by
      simpa [makeRequestUrl] using congrArg List.length hu
    exact hb (List.length_eq_zero.mp (by omega))

/-- Witness for C2: the amended theorem applied at concrete inputs. -/
theorem signature_determinism_witness :
    (generate_signature (strLit "aaaaaaaa-bbbb-cccc-dddd-eeeeeeeeeeee")
        (strLit "/op/v0/device/real/query") 1700000000000
      = md5Hex (encodeUtf8 (signatureInput
          (strLit "aaaaaaaa-bbbb-cccc-dddd-eeeeeeeeeeee")
          (strLit "/op/v0/device/real/query") 1700000000000)))
  ∧ signatureInput (strLit "tok") (strLit "/a") 5
      ≠ signatureInput (strLit "tok") (strLit "/b") 5
  ∧ signatureInput (strLit "tok1") (strLit "/a") 5
      ≠ signatureInput (strLit "tok2") (strLit "/a") 5
  ∧ signatureInput (strLit "tok") (strLit "/a") 5
      ≠ signatureInput (strLit "tok") (strLit "/a") 6
  ∧ signatureInput (strLit "tok") (strLit "/a") 5
      ≠ signatureInput (strLit "tok")
          (makeRequestUrl (strLit "https://www.foxesscloud.com") (strLit "/a")) 5 :=
  ⟨signature_determinism_and_path_signing.1 _ _ _,
   signature_determinism_and_path_signing.2.2.1 _ _ _ 5 (by decide),
   signature_determinism_and_path_signing.2.2.2.1 _ _ _ 5 (by decide),
   signature_determinism_and_path_signing.2.2.2.2.1 _ _ 5 6 (by decide),
   (signature_determinism_and_path_signing.2.2.2.2.2 _ _ _ 5).2 (by decide)⟩

/-- C2 counterexample: it is not the case that changing the signed path
always changes the digest — the 128-bit MD5 digest space is finite
while the path space is not, so two distinct paths share a signature
under the same token and timestamp. -/
theorem signature_digest_collision_exists :
    ¬ (∀ u₁ u₂ : PyStr, u₁ ≠ u₂ →
        generate_signature (strLit "aaaaaaaa-bbbb-cccc-dddd-eeeeeeeeeeee")
            u₁ 1700000000000
          ≠ generate_signature (strLit "aaaaaaaa-bbbb-cccc-dddd-eeeeeeeeeeee")
            u₂ 1700000000000) := by
  intro hinj
  obtain ⟨u₁, u₂, hne, heq⟩ :=
    Finite.exists_ne_map_eq_of_infinite
      (fun u : PyStr => md5DigestFin (encodeUtf8 (signatureInput
        (strLit "aaaaaaaa-bbbb-cccc-dddd-eeeeeeeeeeee") u 1700000000000)))
  refine hinj u₁ u₂ hne ?_
  have hv := congrArg Fin.val heq
  rw [md5DigestFin_val, md5DigestFin_val] at hv
  have hb := md5Bytes_eq_of_bytesToNat_eq hv
  unfold generate_signature md5Hex
  rw [hb]

/-- C3 counterexample: constructing the credential holder with token
not-a-uuid (and a valid serial) raises AuthenticationError, which is a
different error class than the ConfigurationError the claim names. -/
theorem credential_error_class_counterexample :
    tokenManagerInit (some (strLit "not-a-uuid"))
        (some (strLit "ABC1234567890")) none none
      = .error .authenticationError
  ∧ CredErrorKind.authenticationError ≠ CredErrorKind.configurationError := by
  exact ⟨by decide, by decide⟩

/-- C3 (amended). With explicitly provided credentials, construction
succeeds exactly when the token matches the 8-4-4-4-12 hexadecimal
pattern and the serial matches the 10-20 uppercase alphanumeric
pattern; a present but malformed credential fails at construction with
AuthenticationError (ConfigurationError is reserved for a missing or
empty credential); in particular token not-a-uuid and serial short each
raise AuthenticationError at construction, and the valid example pair
constructs successfully. -/
theorem credential_validation_rules :
    (∀ tok sn : PyStr,
        (tokenManagerInit (some tok) (some sn) none none).isOk
          = (validate_token_format tok && validate_device_sn_format sn))
  ∧ (∀ tok sn : PyStr, tok ≠ [] → sn ≠ [] →
        (validate_token_format tok = false
          ∨ validate_device_sn_format sn = false) →
        tokenManagerInit (some tok) (some sn) none none
          = .error .authenticationError)
  ∧ (∀ envT envS : Option PyStr,
        tokenManagerInit (some []) (some []) envT envS
          = tokenManagerInit none none envT envS)
  ∧ tokenManagerInit none none none none = .error .configurationError
  ∧ tokenManagerInit (some (strLit "not-a-uuid"))
      (some (strLit "ABC1234567890")) none none = .error .authenticationError
  ∧ tokenManagerInit (some (strLit "aaaaaaaa-bbbb-cccc-dddd-eeeeeeeeeeee"))
      (some (strLit "short")) none none = .error .authenticationError
  ∧ tokenManagerInit (some (strLit "aaaaaaaa-bbbb-cccc-dddd-eeeeeeeeeeee"))
      (some (strLit "ABC1234567890")) none none
      = .ok ⟨strLit "aaaaaaaa-bbbb-cccc-dddd-eeeeeeeeeeee",
             strLit "ABC1234567890"⟩ := by
  refine ⟨?_, ?_, ?_, by decide, by decide, by decide, by decide⟩
  · intro tok sn
    by_cases htok : tok = []
    · subst htok
      simp [tokenManagerInit, truthyStr, validate_token_format, Except.isOk, Except.toBool]
    · by_cases hsn : sn = []
      · subst hsn
        simp [tokenManagerInit, truthyStr, validate_device_sn_format,
          List.isEmpty_eq_true, htok, Except.isOk, Except.toBool]
      · simp only [tokenManagerInit, truthyStr,
          List.isEmpty_eq_true, htok, hsn, if_false, Option.orElse_none]
        by_cases hv : validate_token_format tok
        · by_cases hv₂ : validate_device_sn_format sn
          · simp [hv, hv₂, Except.isOk, Except.toBool]
          · simp [hv, hv₂, Except.isOk, Except.toBool]
        · simp [hv, Except.isOk, Except.toBool]
  · intro tok sn htok hsn hbad
    simp only [tokenManagerInit, truthyStr,
      List.isEmpty_eq_true, htok, hsn, if_false, Option.orElse_none]
    rcases hbad with hbad | hbad
    · simp [hbad]
    · by_cases hv : validate_token_format tok <;> simp [hv, hbad]
  · intro envT envS
    simp [tokenManagerInit, truthyStr]

/-- Witness for C3: the amended theorem applied at concrete inputs. -/
theorem credential_validation_witness :
    (tokenManagerInit (some (strLit "not-a-uuid"))
        (some (strLit "ABC1234567890")) none none).isOk
      = (validate_token_format (strLit "not-a-uuid")
          && validate_device_sn_format (strLit "ABC1234567890"))
  ∧ tokenManagerInit (some (strLit "not-a-uuid"))
      (some (strLit "ABC1234567890")) none none
      = .error .authenticationError :=
  ⟨credential_validation_rules.1 _ _,
   credential_validation_rules.2.1 _ _ (by decide) (by decide)
     (Or.inl (by decide))⟩

theorem can_make_request_snd (rl : RateLimiter) (rt : ReqType) (now : ℚ) :
    (can_make_request rl rt now).2
      = ⟨prunedHistory rl now, rl.last_request_time⟩ := by
  unfold can_make_request
  split_ifs <;> rfl

theorem can_make_request_true_iff (rl : RateLimiter) (rt : ReqType) (now : ℚ) :
    (can_make_request rl rt now).1 = true ↔
      (prunedHistory rl now).length < daily_limit
        ∧ minInterval rt ≤ now - rl.last_request_time := by
  unfold can_make_request
  split_ifs with h₁ h₂
  · simp only [Bool.false_eq_true, false_iff, not_and, not_le]
    intro h
    omega
  · simp only [Bool.false_eq_true, false_iff, not_and, not_le]
    intro _
    exact h₂
  · simp only [true_iff]
    exact ⟨by omega, le_of_not_lt h₂⟩

/-- C4 (confirmed). With 1440 recorded requests all inside the trailing
24-hour window, the next check is denied and no quota remains; once the
clock passes 24 hours after the oldest recorded timestamp, so that the
oldest alone has left the window, exactly one unit of capacity is
free — the check passes (interval permitting), one request remains,
and recording that single request exhausts the quota again; and on
every protocol-reachable state the stored history never exceeds the
daily limit of 1440, the bound being maintained by refusing requests
while pruning only discards entries older than the window. -/
theorem daily_quota_windowing :
    (∀ (rl : RateLimiter) (now : ℚ) (rt : ReqType),
        rl.request_history.length = 1440 →
        (∀ t ∈ rl.request_history, now - 86400 < t) →
        (can_make_request rl rt now).1 = false
          ∧ get_remaining_requests rl now = 0)
  ∧ (∀ (rl : RateLimiter) (now t₀ : ℚ) (rest : List ℚ),
        rl.request_history = t₀ :: rest →
        rest.length = 1439 →
        t₀ ≤ now - 86400 →
        (∀ t ∈ rest, now - 86400 < t) →
        1 ≤ now - rl.last_request_time →
        (can_make_request rl .query now).1 = true
          ∧ get_remaining_requests rl now = 1
          ∧ (can_make_request
              (record_request (can_make_request rl .query now).2 now)
              .query now).1 = false)
  ∧ (∀ (rl : RateLimiter) (t : ℚ),
        RateReach rl t → rl.request_history.length ≤ daily_limit) := by
  refine ⟨?_, ?_, ?_⟩
  · intro rl now rt hlen hin
    have hfull : prunedHistory rl now = rl.request_history := by
      rw [prunedHistory, List.filter_eq_self]
      intro a ha
      exact decide_eq_true (hin a ha)
    constructor
    · unfold can_make_request
      rw [hfull, hlen]
      simp [daily_limit]
    · unfold get_remaining_requests
      rw [show rl.request_history.filter (fun t => decide (now - 86400 < t))
            = prunedHistory rl now from rfl, hfull, hlen]
      decide
  · intro rl now t₀ rest hhist hlen h₀ hin hgap
    have hfilter : prunedHistory rl now = rest := by
      rw [prunedHistory, hhist]
      have h₁ : (decide (now - 86400 < t₀)) = false := by
        simp only [decide_eq_false_iff_not, not_lt]
        exact h₀
      rw [List.filter_cons_of_neg (by simp [h₁]), List.filter_eq_self.mpr
        (fun a ha => decide_eq_true (hin a ha))]
    have hcan : (can_make_request rl .query now).1 = true := by
      rw [can_make_request_true_iff, hfilter, hlen]
      exact ⟨by norm_num [daily_limit], by simpa [minInterval] using hgap⟩
    refine ⟨hcan, ?_, ?_⟩
    · unfold get_remaining_requests
      rw [show rl.request_history.filter (fun t => decide (now - 86400 < t))
            = prunedHistory rl now from rfl, hfilter, hlen]
      decide
    · rw [can_make_request_snd]
      have hall : prunedHistory
          ⟨prunedHistory rl now ++ [now], now⟩ now = rest ++ [now] := by
        rw [prunedHistory]
        simp only [hfilter]
        rw [List.filter_eq_self]
        intro a ha
        rcases List.mem_append.mp ha with h | h
        · exact decide_eq_true (hin a h)
        · have : a = now := by simpa using h
          subst this
          exact decide_eq_true (by norm_num)
      rcases hres : (can_make_request
          (record_request ⟨prunedHistory rl now, rl.last_request_time⟩ now)
          .query now).1 with _ | _
      · rfl
      · have := (can_make_request_true_iff _ .query now).mp hres
        have hlen₂ := this.1
        unfold record_request at hlen₂
        simp only at hlen₂
        rw [hall] at hlen₂
        simp [hlen, daily_limit] at hlen₂
  · intro rl t h
    induction h with
    | init t => simp [RateLimiter.init]
    | advance h hle ih => exact ih
    | check rt h ih =>
        rw [can_make_request_snd]
        exact le_trans (List.length_filter_le _ _) ih
    | record rt h hok ih =>
        rename_i rl₂ t₂
        have hlt := ((can_make_request_true_iff rl₂ _ t₂).mp hok).1
        rw [can_make_request_snd]
        unfold record_request
        simp only [List.length_append, List.length_cons, List.length_nil]
        omega

set_option maxRecDepth 4000 in
/-- Witness for C4: the quota theorem applied to a concrete limiter
holding 1440 window-resident timestamps, to the same limiter once the
oldest timestamp has aged out, and to a protocol-reachable state. -/
theorem daily_quota_witness :
    ((can_make_request
        ⟨(List.range 1440).map (fun i : Nat => (100001 + i : ℚ)), 186398⟩
        .query 186400).1 = false
      ∧ get_remaining_requests
          ⟨(List.range 1440).map (fun i : Nat => (100001 + i : ℚ)), 186398⟩
          186400 = 0)
  ∧ ((can_make_request
        ⟨100000 :: (List.range 1439).map (fun i : Nat => (100001 + i : ℚ)), 186398⟩
        .query 186400).1 = true
      ∧ get_remaining_requests
          ⟨100000 :: (List.range 1439).map (fun i : Nat => (100001 + i : ℚ)), 186398⟩
          186400 = 1)
  ∧ (RateLimiter.init).request_history.length ≤ daily_limit := by
  have hmem : ∀ n : Nat, ∀ t ∈ (List.range n).map (fun i : Nat => (100001 + i : ℚ)),
      (186400 : ℚ) - 86400 < t := by
    intro n t ht
    simp only [List.mem_map, List.mem_range] at ht
    obtain ⟨i, _, rfl⟩ := ht
    have : (0 : ℚ) ≤ (i : ℚ) := Nat.cast_nonneg i
    norm_num
    linarith
  refine ⟨?_, ?_, ?_⟩
  · exact (daily_quota_windowing.1
      ⟨(List.range 1440).map (fun i : Nat => (100001 + i : ℚ)), 186398⟩ 186400 .query
      (by rw [List.length_map, List.length_range]) (hmem 1440))
  · have h := daily_quota_windowing.2.1
      ⟨100000 :: (List.range 1439).map (fun i : Nat => (100001 + i : ℚ)), 186398⟩
      186400 100000 ((List.range 1439).map (fun i : Nat => (100001 + i : ℚ)))
      rfl (by rw [List.length_map, List.length_range]) (by norm_num)
      (hmem 1439) (by norm_num)
    exact ⟨h.1, h.2.1⟩
  · exact daily_quota_windowing.2.2 RateLimiter.init 5 (RateReach.init 5)

/-- C5 (confirmed). After a request is recorded at instant t (the
record path is shared by query and update traffic and updates the one
shared last-request instant), an update check strictly before t plus
two seconds is denied and one at or after t plus two passes whenever
the daily quota is not exhausted; a query check applies the one-second
threshold to the same shared instant, so a query right after an update
is gated by the update's timestamp. -/
theorem interval_gating :
    ∀ (rl : RateLimiter) (t now : ℚ),
      (now < t + 2 →
        (can_make_request (record_request rl t) .update now).1 = false)
    ∧ (t + 2 ≤ now →
        (prunedHistory (record_request rl t) now).length < daily_limit →
        (can_make_request (record_request rl t) .update now).1 = true)
    ∧ (now < t + 1 →
        (can_make_request (record_request rl t) .query now).1 = false)
    ∧ (t + 1 ≤ now →
        (prunedHistory (record_request rl t) now).length < daily_limit →
        (can_make_request (record_request rl t) .query now).1 = true) := by
  intro rl t now
  refine ⟨?_, ?_, ?_, ?_⟩
  · intro hlt
    rcases hb : (can_make_request (record_request rl t) .update now).1 with _ | _
    · rfl
    · have := (can_make_request_true_iff _ .update now).mp hb
      have h₂ := this.2
      simp only [minInterval, record_request] at h₂
      linarith
  · intro hge hquota
    rw [can_make_request_true_iff]
    refine ⟨hquota, ?_⟩
    simp only [minInterval, record_request]
    linarith
  · intro hlt
    rcases hb : (can_make_request (record_request rl t) .query now).1 with _ | _
    · rfl
    · have := (can_make_request_true_iff _ .query now).mp hb
      have h₂ := this.2
      simp only [minInterval, record_request] at h₂
      linarith
  · intro hge hquota
    rw [can_make_request_true_iff]
    refine ⟨hquota, ?_⟩
    simp only [minInterval, record_request]
    linarith

/-- Witness for C5: the interval theorem applied to a fresh limiter at
concrete instants around the two thresholds. -/
theorem interval_gating_witness :
    ((can_make_request (record_request RateLimiter.init 10) .update (23/2)).1
        = false)
  ∧ ((can_make_request (record_request RateLimiter.init 10) .update 12).1
        = true)
  ∧ ((can_make_request (record_request RateLimiter.init 10) .query (21/2)).1
        = false)
  ∧ ((can_make_request (record_request RateLimiter.init 10) .query 11).1
        = true) := by
  have hq : (prunedHistory (record_request RateLimiter.init 10) 12).length
      < daily_limit := by
    simp [prunedHistory, record_request, RateLimiter.init, daily_limit]
    norm_num
  have hq₂ : (prunedHistory (record_request RateLimiter.init 10) 11).length
      < daily_limit := by
    simp [prunedHistory, record_request, RateLimiter.init, daily_limit]
    norm_num
  exact ⟨(interval_gating RateLimiter.init 10 (23/2)).1 (by norm_num),
    (interval_gating RateLimiter.init 10 12).2.1 (by norm_num) hq,
    (interval_gating RateLimiter.init 10 (21/2)).2.2.1 (by norm_num),
    (interval_gating RateLimiter.init 10 11).2.2.2 (by norm_num) hq₂⟩

theorem alistGet_insert {α : Type} (k : PyStr) (v : α) (l : List (PyStr × α)) :
    alistGet k (alistInsert k v l) = some v := by
  simp [alistInsert, alistGet]

theorem alistGet_erase {α : Type} (k : PyStr) (l : List (PyStr × α)) :
    alistGet k (alistErase k l) = none := by
  induction l with
  | nil => rfl
  | cons p t ih =>
      by_cases h : p.1 = k
      · simpa [alistErase, h] using ih
      · simpa [alistErase, alistGet, h] using ih

theorem memoryLookup_entry (st : CacheState) (key : PyStr) (now : ℚ)
    (e : MemEntry) (he : alistGet key st.memory = some e) :
    memoryLookup st key now
      = if now - e.insertedAt < (st.default_ttl : ℚ) then some e.value
        else none := by
  unfold memoryLookup
  rw [he]

theorem memoryLookup_absent (st : CacheState) (key : PyStr) (now : ℚ)
    (he : alistGet key st.memory = none) :
    memoryLookup st key now = none := by
  unfold memoryLookup
  rw [he]

theorem getFromDisk_entry (st : CacheState) (key dataType : PyStr) (now : ℚ)
    (e : DiskEntry) (he : alistGet key st.disk = some e) :
    getFromDisk st key dataType now
      = (if MAX_CACHE_FILE_SIZE < e.fileSize then
          (none, { st with disk := alistErase key st.disk })
        else if (e.ttl : ℚ) < now - e.created then
          (none, { st with disk := alistErase key st.disk })
        else if st.encryptionKey = e.encKeyId then (some e.value, st)
        else (none, { st with disk := alistErase key st.disk })) := by
  unfold getFromDisk
  rw [he]

theorem getFromDisk_absent (st : CacheState) (key dataType : PyStr) (now : ℚ)
    (he : alistGet key st.disk = none) :
    getFromDisk st key dataType now = (none, st) := by
  unfold getFromDisk
  rw [he]

theorem cacheGet_of_memory {st : CacheState} {key dataType : PyStr} {now : ℚ}
    {v : Json} (h : memoryLookup st key now = some v) :
    cacheGet st key dataType now = (some v, st) := by
  unfold cacheGet
  rw [h]

theorem cacheGet_of_miss {st : CacheState} {key dataType : PyStr} {now : ℚ}
    (hm : memoryLookup st key now = none) :
    cacheGet st key dataType now
      = match getFromDisk { st with diskReads := st.diskReads + 1 }
            key dataType now with
        | (some v, st₂) =>
            (some v, { st₂ with memory := alistInsert key ⟨v, now⟩ st₂.memory })
        | (none, st₂) => (none, st₂) := by
  unfold cacheGet
  rw [hm]

theorem cacheSet_state (st : CacheState) (key : PyStr) (v : Json)
    (dataType : PyStr) (ttl : Nat) (t₀ : ℚ)
    (hsize : (serializeJson v).length ≤ MAX_CACHE_FILE_SIZE) :
    (cacheSet st key v dataType (some ttl) t₀ false).2
      = { st with
          memory := alistInsert key ⟨v, t₀⟩ st.memory,
          disk := alistInsert key
            ⟨v, t₀, ttl, st.encryptionKey, (serializeJson v).length⟩ st.disk } := by
  unfold cacheSet setToDisk resolveTtl
  rw [if_neg (not_lt.mpr hsize), if_neg Bool.false_ne_true]

/-- C1 (amended). For an entry written by set with per-entry TTL t
(disk write succeeding), a later get at age a returns the original
value whenever a is at most t or a is below the manager-wide memory
TTL, and returns absent exactly once a exceeds t and has reached the
memory TTL; in particular the value is still returned at age t - 1,
and an entry served from the disk tier is never older than its
per-entry TTL. The memory tier, however, holds every entry for the
manager default TTL irrespective of the per-entry TTL, so an entry
whose TTL is shorter than the default can still be returned from
memory after its TTL has elapsed (see the counterexample). -/
theorem ttl_expiry_semantics :
    (∀ (st : CacheState) (key : PyStr) (v : Json) (dataType : PyStr)
        (ttl : Nat) (t₀ t : ℚ),
        (serializeJson v).length ≤ MAX_CACHE_FILE_SIZE →
        (t - t₀ ≤ (ttl : ℚ) ∨ t - t₀ < (st.default_ttl : ℚ)) →
        (cacheGet ((cacheSet st key v dataType (some ttl) t₀ false).2)
            key dataType t).1 = some v)
  ∧ (∀ (st : CacheState) (key : PyStr) (v : Json) (dataType : PyStr)
        (ttl : Nat) (t₀ t : ℚ),
        (serializeJson v).length ≤ MAX_CACHE_FILE_SIZE →
        ((ttl : ℚ) < t - t₀) →
        ((st.default_ttl : ℚ) ≤ t - t₀) →
        (cacheGet ((cacheSet st key v dataType (some ttl) t₀ false).2)
            key dataType t).1 = none)
  ∧ (∀ (st : CacheState) (key dataType : PyStr) (now : ℚ) (v : Json)
        (st₂ : CacheState),
        getFromDisk st key dataType now = (some v, st₂) →
        ∃ e : DiskEntry, alistGet key st.disk = some e ∧ v = e.value
          ∧ now - e.created ≤ (e.ttl : ℚ)) := by
  refine ⟨?_, ?_, ?_⟩
  · intro st key v dataType ttl t₀ t hsize hfresh
    rw [cacheSet_state st key v dataType ttl t₀ hsize]
    set st₁ : CacheState := { st with
      memory := alistInsert key ⟨v, t₀⟩ st.memory,
      disk := alistInsert key
        ⟨v, t₀, ttl, st.encryptionKey, (serializeJson v).length⟩ st.disk }
    have hm := memoryLookup_entry st₁ key t ⟨v, t₀⟩ (alistGet_insert _ _ _)
    by_cases hmem : t - t₀ < (st.default_ttl : ℚ)
    · rw [cacheGet_of_memory (by rw [hm]; exact if_pos hmem)]
    · have hdisk : t - t₀ ≤ (ttl : ℚ) := by
        rcases hfresh with h | h
        · exact h
        · exact absurd h hmem
      have hmiss : memoryLookup st₁ key t = none := by
        rw [hm]
        exact if_neg hmem
      rw [cacheGet_of_miss hmiss]
      rw [getFromDisk_entry _ key dataType t _ (alistGet_insert _ _ _),
        if_neg (not_lt.mpr hsize), if_neg (not_lt.mpr hdisk), if_pos rfl]
  · intro st key v dataType ttl t₀ t hsize hexp hmem
    rw [cacheSet_state st key v dataType ttl t₀ hsize]
    set st₁ : CacheState := { st with
      memory := alistInsert key ⟨v, t₀⟩ st.memory,
      disk := alistInsert key
        ⟨v, t₀, ttl, st.encryptionKey, (serializeJson v).length⟩ st.disk }
    have hm := memoryLookup_entry st₁ key t ⟨v, t₀⟩ (alistGet_insert _ _ _)
    have hmiss : memoryLookup st₁ key t = none := by
      rw [hm]
      exact if_neg (not_lt.mpr hmem)
    rw [cacheGet_of_miss hmiss]
    rw [getFromDisk_entry _ key dataType t _ (alistGet_insert _ _ _),
      if_neg (not_lt.mpr hsize), if_pos hexp]
  · intro st key dataType now v st₂ h
    rcases he : alistGet key st.disk with _ | e
    · rw [getFromDisk_absent st key dataType now he] at h
      simp at h
    · rw [getFromDisk_entry st key dataType now e he] at h
      refine ⟨e, rfl, ?_, ?_⟩
      · by_cases h₁ : MAX_CACHE_FILE_SIZE < e.fileSize
        · rw [if_pos h₁] at h
          simp at h
        · rw [if_neg h₁] at h
          by_cases h₂ : (e.ttl : ℚ) < now - e.created
          · rw [if_pos h₂] at h
            simp at h
          · rw [if_neg h₂] at h
            by_cases h₃ : st.encryptionKey = e.encKeyId
            · rw [if_pos h₃] at h
              have hv := congrArg Prod.fst h
              simpa using hv.symm
            · rw [if_neg h₃] at h
              simp at h
      · by_cases h₁ : MAX_CACHE_FILE_SIZE < e.fileSize
        · rw [if_pos h₁] at h
          simp at h
        · rw [if_neg h₁] at h
          by_cases h₂ : (e.ttl : ℚ) < now - e.created
          · rw [if_pos h₂] at h
            simp at h
          · exact le_of_not_lt h₂

/-- C1 counterexample: an entry stored with ttl 2 at time 0 is still
returned by get at time 3, although now - createdAt = 3 exceeds the
ttl — the memory tier keeps serving it until the manager-wide default
TTL (here 300) elapses, so get does not return absent once
now - createdAt exceeds the per-entry ttl. -/
theorem ttl_expiry_counterexample :
    ((2 : Nat) : ℚ) < 3 - 0
  ∧ (cacheGet ((cacheSet ⟨300, none, [], [], 0⟩ (strLit "k") (.str [97])
        (strLit "default") (some 2) 0 false).2)
      (strLit "k") (strLit "default") 3).1 = some (.str [97]) := by
  constructor
  · norm_num
  · rw [cacheSet_state _ _ _ _ _ _ (by decide)]
    rw [cacheGet_of_memory (v := Json.str [97]) (by
      rw [memoryLookup_entry _ _ _ ⟨.str [97], 0⟩ (alistGet_insert _ _ _)]
      norm_num)]

/-- Witness for C1: the amended theorem applied at concrete inputs —
the stored value is still served at age ttl - 1 and at age 3 with
ttl 2 under the default memory TTL of 300; it is absent at age 3 when
both the ttl (1) and the default TTL (2) have elapsed; and a concrete
disk read returns an entry no older than its ttl. -/
theorem ttl_expiry_witness :
    (cacheGet ((cacheSet ⟨300, none, [], [], 0⟩ (strLit "k") (.str [97])
        (strLit "default") (some 2) 0 false).2)
      (strLit "k") (strLit "default") 1).1 = some (.str [97])
  ∧ (cacheGet ((cacheSet ⟨2, none, [], [], 0⟩ (strLit "k") (.str [97])
        (strLit "default") (some 1) 0 false).2)
      (strLit "k") (strLit "default") 3).1 = none
  ∧ ∃ e : DiskEntry,
      alistGet (strLit "k")
        ([(strLit "k", ⟨Json.str [97], 0, 60, none, 5⟩)] :
          List (PyStr × DiskEntry)) = some e
      ∧ Json.str [97] = e.value ∧ (10 : ℚ) - e.created ≤ (e.ttl : ℚ) := by
  refine ⟨?_, ?_, ?_⟩
  · exact ttl_expiry_semantics.1 ⟨300, none, [], [], 0⟩ (strLit "k")
      (.str [97]) (strLit "default") 2 0 1 (by decide)
      (Or.inl (by norm_num))
  · exact ttl_expiry_semantics.2.1 ⟨2, none, [], [], 0⟩ (strLit "k")
      (.str [97]) (strLit "default") 1 0 3 (by decide)
      (by norm_num) (by norm_num)
  · exact ttl_expiry_semantics.2.2
      ⟨300, none, [], [(strLit "k", ⟨Json.str [97], 0, 60, none, 5⟩)], 0⟩
      (strLit "k") (strLit "historical") 10 (Json.str [97])
      ⟨300, none, [], [(strLit "k", ⟨Json.str [97], 0, 60, none, 5⟩)], 0⟩
      (by
        rw [getFromDisk_entry _ _ _ _ ⟨Json.str [97], 0, 60, none, 5⟩
          (by simp [alistGet])]
        rw [if_neg (by norm_num [MAX_CACHE_FILE_SIZE]), if_neg (by norm_num),
          if_pos rfl])

theorem getFromDisk_diskReads (st : CacheState) (key dataType : PyStr)
    (now : ℚ) :
    (getFromDisk st key dataType now).2.diskReads = st.diskReads := by
  rcases he : alistGet key st.disk with _ | e
  · rw [getFromDisk_absent _ _ _ _ he]
  · rw [getFromDisk_entry _ _ _ _ _ he]
    split_ifs <;> rfl

/-- C8 (amended). A get served from the disk tier repopulates the
memory tier before returning (one disk consultation is counted), and
every subsequent get for the same key is served from memory with the
state — in particular the disk-read counter — unchanged, for as long
as the memory tier still holds the entry, that is, while the age of
the promotion is below the manager-wide default TTL. When the entry's
own TTL exceeds the default TTL, a later get inside the entry's TTL
window but past the default TTL consults the disk tier again (see the
counterexample). -/
theorem read_through_promotion :
    (∀ (st : CacheState) (key dataType : PyStr) (now : ℚ) (v : Json)
        (st₂ : CacheState),
        memoryLookup st key now = none →
        cacheGet st key dataType now = (some v, st₂) →
        alistGet key st₂.memory = some ⟨v, now⟩
          ∧ st₂.diskReads = st.diskReads + 1)
  ∧ (∀ (st : CacheState) (key dataType : PyStr) (t₂ : ℚ) (e : MemEntry),
        alistGet key st.memory = some e →
        t₂ - e.insertedAt < (st.default_ttl : ℚ) →
        cacheGet st key dataType t₂ = (some e.value, st)) := by
  constructor
  · intro st key dataType now v st₂ hmiss heq
    rw [cacheGet_of_miss hmiss] at heq
    rcases hd : getFromDisk { st with diskReads := st.diskReads + 1 }
        key dataType now with ⟨o, st₃⟩
    rcases o with _ | w
    · rw [hd] at heq
      simp at heq
    · rw [hd] at heq
      have hv : w = v := by
        have := congrArg Prod.fst heq
        simpa using this
      have hst : st₂ = { st₃ with memory := alistInsert key ⟨w, now⟩ st₃.memory } := by
        have := congrArg Prod.snd heq
        simpa using this.symm
      subst hv
      constructor
      · rw [hst]
        exact alistGet_insert _ _ _
      · rw [hst]
        have := getFromDisk_diskReads { st with diskReads := st.diskReads + 1 }
          key dataType now
        rw [hd] at this
        exact this
  · intro st key dataType t₂ e he hfresh
    refine cacheGet_of_memory ?_
    rw [memoryLookup_entry st key t₂ e he]
    exact if_pos hfresh

/-- C8 counterexample: with the default memory TTL of 300, a
historical entry of TTL 3600 read (and promoted) at time 0 is read
from disk again by a get at time 300, still inside the entry's TTL
window: the disk-read counter rises from 1 to 2 instead of staying
constant. -/
theorem read_through_promotion_counterexample :
    ((cacheGet ⟨300, none, [],
        [(strLit "k", ⟨Json.str [97], 0, 3600, none, 5⟩)], 0⟩
        (strLit "k") (strLit "historical") 0).2.diskReads = 1)
  ∧ ((cacheGet (cacheGet ⟨300, none, [],
        [(strLit "k", ⟨Json.str [97], 0, 3600, none, 5⟩)], 0⟩
        (strLit "k") (strLit "historical") 0).2
        (strLit "k") (strLit "historical") 300).2.diskReads = 2)
  ∧ ((300 : ℚ) - 0 ≤ ((3600 : Nat) : ℚ)) := by
  have h₁ : cacheGet ⟨300, none, [],
      [(strLit "k", ⟨Json.str [97], 0, 3600, none, 5⟩)], 0⟩
      (strLit "k") (strLit "historical") 0
      = (some (Json.str [97]),
        ⟨300, none, [(strLit "k", ⟨Json.str [97], 0⟩)],
          [(strLit "k", ⟨Json.str [97], 0, 3600, none, 5⟩)], 1⟩) := by
    rw [cacheGet_of_miss (memoryLookup_absent
      ⟨300, none, [], [(strLit "k", ⟨Json.str [97], 0, 3600, none, 5⟩)], 0⟩
      (strLit "k") 0 rfl)]
    rw [getFromDisk_entry _ _ _ _ ⟨Json.str [97], 0, 3600, none, 5⟩
      (by simp [alistGet])]
    rw [if_neg (by norm_num [MAX_CACHE_FILE_SIZE]), if_neg (by norm_num),
      if_pos rfl]
    rfl
  have h₂ : cacheGet ⟨300, none, [(strLit "k", ⟨Json.str [97], 0⟩)],
      [(strLit "k", ⟨Json.str [97], 0, 3600, none, 5⟩)], 1⟩
      (strLit "k") (strLit "historical") 300
      = (some (Json.str [97]),
        ⟨300, none, [(strLit "k", ⟨Json.str [97], 300⟩)],
          [(strLit "k", ⟨Json.str [97], 0, 3600, none, 5⟩)], 2⟩) := by
    rw [cacheGet_of_miss (by
      rw [memoryLookup_entry _ _ _ ⟨Json.str [97], 0⟩ (by simp [alistGet])]
      norm_num)]
    rw [getFromDisk_entry _ _ _ _ ⟨Json.str [97], 0, 3600, none, 5⟩
      (by simp [alistGet])]
    rw [if_neg (by norm_num [MAX_CACHE_FILE_SIZE]), if_neg (by norm_num),
      if_pos rfl]
    rfl
  refine ⟨by rw [h₁], by rw [h₁, h₂], by norm_num⟩

/-- Witness for C8: the amended theorem applied to a concrete state —
a get at time 0 promotes the disk entry and counts one disk read, and
a repeated get at time 200 (inside the default TTL) is served from
memory with the state unchanged. -/
theorem read_through_promotion_witness :
    (alistGet (strLit "k") (cacheGet ⟨300, none, [],
        [(strLit "k", ⟨Json.str [97], 0, 3600, none, 5⟩)], 0⟩
        (strLit "k") (strLit "historical") 0).2.memory
        = some ⟨Json.str [97], 0⟩
      ∧ (cacheGet ⟨300, none, [],
          [(strLit "k", ⟨Json.str [97], 0, 3600, none, 5⟩)], 0⟩
          (strLit "k") (strLit "historical") 0).2.diskReads = 0 + 1)
  ∧ cacheGet ⟨300, none, [(strLit "k", ⟨Json.str [97], 0⟩)],
        [(strLit "k", ⟨Json.str [97], 0, 3600, none, 5⟩)], 1⟩
        (strLit "k") (strLit "historical") 200
      = (some (Json.str [97]),
        ⟨300, none, [(strLit "k", ⟨Json.str [97], 0⟩)],
          [(strLit "k", ⟨Json.str [97], 0, 3600, none, 5⟩)], 1⟩) := by
  constructor
  · refine read_through_promotion.1
      ⟨300, none, [], [(strLit "k", ⟨Json.str [97], 0, 3600, none, 5⟩)], 0⟩
      (strLit "k") (strLit "historical") 0 (Json.str [97]) _
      (memoryLookup_absent
        ⟨300, none, [], [(strLit "k", ⟨Json.str [97], 0, 3600, none, 5⟩)], 0⟩
        (strLit "k") 0 rfl) ?_
    rw [cacheGet_of_miss (memoryLookup_absent
      ⟨300, none, [], [(strLit "k", ⟨Json.str [97], 0, 3600, none, 5⟩)], 0⟩
      (strLit "k") 0 rfl)]
    rw [getFromDisk_entry _ _ _ _ ⟨Json.str [97], 0, 3600, none, 5⟩
      (by simp [alistGet])]
    rw [if_neg (by norm_num [MAX_CACHE_FILE_SIZE]), if_neg (by norm_num),
      if_pos rfl]
  · exact read_through_promotion.2
      ⟨300, none, [(strLit "k", ⟨Json.str [97], 0⟩)],
        [(strLit "k", ⟨Json.str [97], 0, 3600, none, 5⟩)], 1⟩
      (strLit "k") (strLit "historical") 200 ⟨Json.str [97], 0⟩
      (by simp [alistGet]) (by norm_num)

theorem setToDisk_memory (st : CacheState) (key : PyStr) (v : Json)
    (ttl : Nat) (now : ℚ) (ioFail : Bool) :
    (setToDisk st key v ttl now ioFail).memory = st.memory := by
  unfold setToDisk
  split_ifs <;> rfl

theorem escapeStr_replicate_a (n : Nat) :
    escapeStr (List.replicate n 97) = List.replicate n 97 := by
  induction n with
  | zero => rfl
  | succ n ih =>
      rw [List.replicate_succ]
      simp only [escapeStr, List.map_cons, List.flatten_cons] at ih ⊢
      rw [show escapeChar 97 = [97] by decide, ih]
      rfl

theorem serializeJson_replicate_length (n : Nat) :
    (serializeJson (.str (List.replicate n 97))).length = n + 2 := by
  show ([34] ++ escapeStr (List.replicate n 97) ++ [34]).length = n + 2
  rw [escapeStr_replicate_a]
  simp only [List.length_append, List.length_cons, List.length_nil,
    List.length_replicate]
  omega

/-- C6 (confirmed). Every set writes the value into the memory tier and
returns True regardless of the disk outcome: an oversized serialized
payload (beyond 10 MB) leaves the disk tier untouched with no file
written and no exception to the caller, and a disk write that fails
with an IOError is cleaned up so that neither a payload nor a metadata
file for the key survives, while set still reports success. -/
theorem set_success_independent_of_disk :
    (∀ (st : CacheState) (key : PyStr) (v : Json) (dataType : PyStr)
        (ttlArg : Option Nat) (now : ℚ) (ioFail : Bool),
        (cacheSet st key v dataType ttlArg now ioFail).1 = true
      ∧ alistGet key (cacheSet st key v dataType ttlArg now ioFail).2.memory
          = some ⟨v, now⟩)
  ∧ (∀ (st : CacheState) (key : PyStr) (v : Json) (dataType : PyStr)
        (ttlArg : Option Nat) (now : ℚ) (ioFail : Bool),
        MAX_CACHE_FILE_SIZE < (serializeJson v).length →
        (cacheSet st key v dataType ttlArg now ioFail).2.disk = st.disk)
  ∧ (∀ (st : CacheState) (key : PyStr) (v : Json) (dataType : PyStr)
        (ttlArg : Option Nat) (now : ℚ),
        (serializeJson v).length ≤ MAX_CACHE_FILE_SIZE →
        alistGet key (cacheSet st key v dataType ttlArg now true).2.disk
          = none) := by
  refine ⟨?_, ?_, ?_⟩
  · intro st key v dataType ttlArg now ioFail
    refine ⟨rfl, ?_⟩
    show alistGet key (setToDisk _ key v _ now ioFail).memory = _
    rw [setToDisk_memory]
    exact alistGet_insert _ _ _
  · intro st key v dataType ttlArg now ioFail hbig
    show (setToDisk _ key v _ now ioFail).disk = st.disk
    unfold setToDisk
    rw [if_pos hbig]
  · intro st key v dataType ttlArg now hsize
    show alistGet key (setToDisk _ key v _ now true).disk = none
    unfold setToDisk
    rw [if_neg (not_lt.mpr hsize), if_pos rfl]
    exact alistGet_erase _ _

/-- Witness for C6: the theorem applied to a payload of 10485759
characters (serialized to 10485761, beyond the 10 MB limit) and to a
small payload whose disk write fails. -/
theorem set_success_witness :
    ((cacheSet ⟨300, none, [], [], 0⟩ (strLit "k")
        (.str (List.replicate 10485759 97)) (strLit "default") none 0
        false).1 = true)
  ∧ ((cacheSet ⟨300, none, [], [], 0⟩ (strLit "k")
        (.str (List.replicate 10485759 97)) (strLit "default") none 0
        false).2.disk = [])
  ∧ (alistGet (strLit "k")
      (cacheSet ⟨300, none, [], [], 0⟩ (strLit "k") (.str [97])
        (strLit "default") none 0 true).2.disk = none) := by
  have hbig : MAX_CACHE_FILE_SIZE
      < (serializeJson (.str (List.replicate 10485759 97))).length := by
    rw [serializeJson_replicate_length]
    norm_num [MAX_CACHE_FILE_SIZE]
  exact ⟨(set_success_independent_of_disk.1 ⟨300, none, [], [], 0⟩ (strLit "k")
      (.str (List.replicate 10485759 97)) (strLit "default") none 0 false).1,
    set_success_independent_of_disk.2.1 ⟨300, none, [], [], 0⟩ (strLit "k")
      (.str (List.replicate 10485759 97)) (strLit "default") none 0 false hbig,
    set_success_independent_of_disk.2.2 ⟨300, none, [], [], 0⟩ (strLit "k")
      (.str [97]) (strLit "default") none 0 (by decide)⟩

/-- C7 (confirmed, with the cipher modelled from the spec's contract
for the external cryptography package). Decrypting under the
encrypting key restores every byte payload up to the 10 MB limit;
decrypting under a different key fails with InvalidToken; and a disk
entry whose payload does not authenticate under the manager's current
key is read as a clean miss — the stale files are deleted and the read
reports absent instead of raising. -/
theorem encryption_roundtrip_and_wrong_key :
    (∀ (key : Nat) (data : List Nat),
        (∀ b ∈ data, b < 256) → data.length ≤ MAX_CACHE_FILE_SIZE →
        fernetDecrypt key (fernetEncrypt key data) = .ok data)
  ∧ (∀ (key key₂ : Nat) (data : List Nat), key ≠ key₂ →
        fernetDecrypt key₂ (fernetEncrypt key data) = .error .invalidToken)
  ∧ (∀ (st : CacheState) (key dataType : PyStr) (now : ℚ) (e : DiskEntry),
        alistGet key st.disk = some e →
        e.fileSize ≤ MAX_CACHE_FILE_SIZE →
        now - e.created ≤ (e.ttl : ℚ) →
        st.encryptionKey ≠ e.encKeyId →
        getFromDisk st key dataType now
            = (none, { st with disk := alistErase key st.disk })
          ∧ alistGet key (getFromDisk st key dataType now).2.disk = none) := by
  refine ⟨?_, ?_, ?_⟩
  · intro key data hbytes _
    unfold fernetEncrypt fernetDecrypt
    rw [if_pos rfl]
    simp only [List.map_map, Except.ok.injEq]
    have hpt : ∀ b ∈ data,
        ((fun b => (b + (256 - key % 256)) % 256) ∘
          fun b => (b + key) % 256) b = id b := by
      intro b hb
      have := hbytes b hb
      simp only [Function.comp, id]
      omega
    rw [List.map_congr_left hpt, List.map_id]
  · intro key key₂ data hne
    unfold fernetEncrypt fernetDecrypt
    rw [if_neg hne]
  · intro st key dataType now e he hsize hfresh hkey
    have hmain : getFromDisk st key dataType now
        = (none, { st with disk := alistErase key st.disk }) := by
      rw [getFromDisk_entry st key dataType now e he,
        if_neg (not_lt.mpr hsize), if_neg (not_lt.mpr hfresh), if_neg hkey]
    refine ⟨hmain, ?_⟩
    rw [hmain]
    exact alistGet_erase _ _

/-- Witness for C7: the theorem applied to a concrete payload and pair
of keys, and to a concrete disk entry encrypted under a key other than
the manager's. -/
theorem encryption_roundtrip_witness :
    fernetDecrypt 7 (fernetEncrypt 7 [0, 255, 97]) = .ok [0, 255, 97]
  ∧ fernetDecrypt 9 (fernetEncrypt 7 [0, 255, 97]) = .error .invalidToken
  ∧ getFromDisk ⟨300, some 2, [],
        [(strLit "k", ⟨Json.str [97], 0, 60, some 1, 5⟩)], 0⟩
        (strLit "k") (strLit "default") 10
      = (none, ⟨300, some 2, [], [], 0⟩) := by
  refine ⟨encryption_roundtrip_and_wrong_key.1 7 [0, 255, 97]
      (by decide) (by decide),
    encryption_roundtrip_and_wrong_key.2.1 7 9 [0, 255, 97] (by decide), ?_⟩
  have h := (encryption_roundtrip_and_wrong_key.2.2
    ⟨300, some 2, [], [(strLit "k", ⟨Json.str [97], 0, 60, some 1, 5⟩)], 0⟩
    (strLit "k") (strLit "default") 10 ⟨Json.str [97], 0, 60, some 1, 5⟩
    (by simp [alistGet]) (by norm_num [MAX_CACHE_FILE_SIZE]) (by norm_num)
    (by simp)).1
  rw [h]
  rfl

/-- C10 (confirmed). delete always removes the key from the memory
tier (and from the disk tier), but its Boolean result reflects only
the disk tier: it is true exactly when an on-disk file for the key
existed and was removed, so deleting a key present only in memory
removes the entry yet returns false. -/
theorem delete_semantics :
    (∀ (st : CacheState) (key : PyStr),
        alistGet key (cacheDelete st key).2.memory = none
      ∧ alistGet key (cacheDelete st key).2.disk = none
      ∧ (cacheDelete st key).1 = (alistGet key st.disk).isSome)
  ∧ (∀ (st : CacheState) (key : PyStr),
        alistGet key st.disk = none →
        (cacheDelete st key).1 = false) := by
  constructor
  · intro st key
    exact ⟨alistGet_erase _ _, alistGet_erase _ _, rfl⟩
  · intro st key h
    show (alistGet key st.disk).isSome = false
    rw [h]
    rfl

/-- Witness for C10: the theorem applied to a state holding the key
only in memory — delete removes it and still returns false. -/
theorem delete_semantics_witness :
    (alistGet (strLit "k")
      (cacheDelete ⟨300, none, [(strLit "k", ⟨Json.str [97], 0⟩)], [], 0⟩
        (strLit "k")).2.memory = none)
  ∧ ((cacheDelete ⟨300, none, [(strLit "k", ⟨Json.str [97], 0⟩)], [], 0⟩
      (strLit "k")).1 = false) :=
  ⟨(delete_semantics.1 ⟨300, none, [(strLit "k", ⟨Json.str [97], 0⟩)], [], 0⟩
      (strLit "k")).1,
   delete_semantics.2 ⟨300, none, [(strLit "k", ⟨Json.str [97], 0⟩)], [], 0⟩
      (strLit "k") rfl⟩

theorem sortKw_perm_eq {kw₁ kw₂ : List (PyStr × PyStr)} (h : kw₁.Perm kw₂) :
    sortKw kw₁ = sortKw kw₂ :=
  List.eq_of_perm_of_sorted
    ((List.perm_insertionSort _ _).trans
      (h.trans (List.perm_insertionSort _ _).symm))
    (List.sorted_insertionSort _ _) (List.sorted_insertionSort _ _)

theorem length_key_hash (op sn : PyStr) (kw : List (PyStr × PyStr)) :
    ((sha256Hex (encodeUtf8 (cacheKeyString op sn kw))).take 32).length
      = 32 := by
  rw [List.length_take]
  unfold sha256Hex
  rw [length_hexOfBytes, sha256Bytes_length]
  omega

theorem joinSep_cancel (sep : PyStr) (pre : List PyStr) {x y : PyStr}
    (post : List PyStr)
    (h : joinSep sep (pre ++ x :: post) = joinSep sep (pre ++ y :: post)) :
    x = y := by
  cases pre with
  | nil =>
      simp only [List.nil_append, joinSep] at h
      exact List.append_cancel_right h
  | cons p t =>
      simp only [List.cons_append, joinSep, List.map_append, List.map_cons,
        List.flatten_append, List.flatten_cons] at h
      have h₂ := List.append_cancel_left (List.append_cancel_left h)
      exact List.append_cancel_left (List.append_cancel_right h₂)

/-- The SHA-256 digest value as an element of the finite 256-bit space,
used for the pigeonhole argument below. -/
def sha256DigestFin (m : List Nat) : Fin (256 ^ 32) :=
  ⟨bytesToNat (sha256Bytes m), by
    have := bytesToNat_lt (sha256Bytes m) (sha256Bytes_bound m)
    rwa [sha256Bytes_length] at this⟩

theorem sha256DigestFin_val (m : List Nat) :
    (sha256DigestFin m).val = bytesToNat (sha256Bytes m) := rfl

/-- C9 (amended). The cache key builder is deterministic and
insensitive to the ordering of the keyword parameters (any permutation
of the kwargs items yields the identical key string); changing the
operation always changes the key, because the operation also appears
in clear in the key; and changing the device serial, or the value of
any single keyword parameter, changes the joined key string that is
hashed. The key itself, though, embeds only the first 128 bits of the
SHA-256 digest of that string, so distinct serials exist whose keys
coincide (see the counterexample). -/
theorem cache_key_determinism :
    (∀ (op sn : PyStr) (kw₁ kw₂ : List (PyStr × PyStr)), kw₁.Perm kw₂ →
        generate_cache_key op sn kw₁ = generate_cache_key op sn kw₂)
  ∧ (∀ (op₁ op₂ sn₁ sn₂ : PyStr) (kw₁ kw₂ : List (PyStr × PyStr)),
        generate_cache_key op₁ sn₁ kw₁ = generate_cache_key op₂ sn₂ kw₂ →
        op₁ = op₂)
  ∧ (∀ (op sn₁ sn₂ : PyStr) (kw : List (PyStr × PyStr)), sn₁ ≠ sn₂ →
        cacheKeyString op sn₁ kw ≠ cacheKeyString op sn₂ kw)
  ∧ (∀ (op sn k v₁ v₂ : PyStr) (pre post : List (PyStr × PyStr)),
        List.Sorted kvLe (pre ++ (k, v₁) :: post) →
        List.Sorted kvLe (pre ++ (k, v₂) :: post) →
        v₁ ≠ v₂ →
        cacheKeyString op sn (pre ++ (k, v₁) :: post)
          ≠ cacheKeyString op sn (pre ++ (k, v₂) :: post)) := by
  refine ⟨?_, ?_, ?_, ?_⟩
  · intro op sn kw₁ kw₂ hperm
    unfold generate_cache_key cacheKeyString
    rw [sortKw_perm_eq hperm]
  · intro op₁ op₂ sn₁ sn₂ kw₁ kw₂ h
    unfold generate_cache_key at h
    simp only [List.append_assoc] at h
    have h₂ := List.append_cancel_left h
    have hlen : ([58] ++ (sha256Hex (encodeUtf8
          (cacheKeyString op₁ sn₁ kw₁))).take 32).length
        = ([58] ++ (sha256Hex (encodeUtf8
          (cacheKeyString op₂ sn₂ kw₂))).take 32).length := by
      simp only [List.length_append, List.length_cons, List.length_nil]
      rw [length_key_hash, length_key_hash]
    exact (List.append_inj' h₂ (by simpa using hlen)).1
  · intro op sn₁ sn₂ kw hne h
    apply hne
    unfold cacheKeyString at h
    exact joinSep_cancel [124] [op] ((sortKw kw).map kvRender)
      (by simpa using h)
  · intro op sn k v₁ v₂ pre post hs₁ hs₂ hne h
    apply hne
    unfold cacheKeyString sortKw at h
    rw [List.Sorted.insertionSort_eq hs₁,
      List.Sorted.insertionSort_eq hs₂] at h
    simp only [List.map_append, List.map_cons] at h
    have h₂ : joinSep [124]
        (([op, sn] ++ pre.map kvRender) ++ kvRender (k, v₁) :: post.map kvRender)
        = joinSep [124]
        (([op, sn] ++ pre.map kvRender) ++ kvRender (k, v₂) :: post.map kvRender) := by
      simpa [List.append_assoc] using h
    have h₃ := joinSep_cancel [124] ([op, sn] ++ pre.map kvRender)
      (post.map kvRender) h₂
    unfold kvRender at h₃
    exact List.append_cancel_left h₃

/-- Witness for C9: the amended theorem applied at concrete inputs —
the historical key of the spec's example is invariant under swapping
the two keyword parameters, the operation is recoverable from any key
equality, and distinct serials or distinct parameter values produce
distinct key strings. -/
theorem cache_key_determinism_witness :
    generate_cache_key (strLit "historical") (strLit "SN123")
        [(strLit "start", strLit "T1"), (strLit "end", strLit "T2")]
      = generate_cache_key (strLit "historical") (strLit "SN123")
        [(strLit "end", strLit "T2"), (strLit "start", strLit "T1")]
  ∧ strLit "historical" = strLit "historical"
  ∧ cacheKeyString (strLit "historical") (strLit "SN123") []
      ≠ cacheKeyString (strLit "historical") (strLit "SN124") []
  ∧ cacheKeyString (strLit "historical") (strLit "SN123")
        [(strLit "start", strLit "T1")]
      ≠ cacheKeyString (strLit "historical") (strLit "SN123")
        [(strLit "start", strLit "T2")] := by
  refine ⟨?_, ?_, ?_, ?_⟩
  · exact cache_key_determinism.1 (strLit "historical") (strLit "SN123")
      _ _ (List.Perm.swap _ _ _)
  · exact cache_key_determinism.2.1 (strLit "historical") (strLit "historical")
      (strLit "SN123") (strLit "SN123") [] [] rfl
  · exact cache_key_determinism.2.2.1 (strLit "historical")
      (strLit "SN123") (strLit "SN124") [] (by decide)
  · exact cache_key_determinism.2.2.2 (strLit "historical") (strLit "SN123")
      (strLit "start") (strLit "T1") (strLit "T2") [] []
      (List.sorted_singleton _) (List.sorted_singleton _) (by decide)

/-- C9 counterexample: it is not the case that changing the device
serial always changes the key — the key embeds only 128 digest bits,
a finite space, while serials are unbounded, so two distinct serials
share a key for the same operation and parameters. -/
theorem cache_key_collision_exists :
    ¬ (∀ sn₁ sn₂ : PyStr, sn₁ ≠ sn₂ →
        generate_cache_key (strLit "historical") sn₁ []
          ≠ generate_cache_key (strLit "historical") sn₂ []) := by
  intro hinj
  obtain ⟨sn₁, sn₂, hne, heq⟩ :=
    Finite.exists_ne_map_eq_of_infinite
      (fun sn : PyStr => sha256DigestFin (encodeUtf8
        (cacheKeyString (strLit "historical") sn [])))
  refine hinj sn₁ sn₂ hne ?_
  have hv := congrArg Fin.val heq
  rw [sha256DigestFin_val, sha256DigestFin_val] at hv
  have hb := bytesToNat_inj _ _
    (by rw [sha256Bytes_length, sha256Bytes_length])
    (sha256Bytes_bound _) (sha256Bytes_bound _) hv
  unfold generate_cache_key sha256Hex
  rw [hb]

end FoxESS
